import Mathlib

/-!
Verification of the Zylith ASP (Association-Set Provider) core against its
specification.  The definitions below are a shallow embedding of the Rust
sources under `asp/src/`:

* `Database` and its operations embed `db/queries.rs` (SQLite tables as lists,
  `INSERT OR IGNORE` as a guarded append).  With a healthy connection the
  mutating statements cannot fail, so the `Result<(), AspError>` values of the
  source are embedded as `Except AspError Database` that carry the table state;
  connection-level `Database` errors are outside the model.
* The prover worker (`worker/worker.mjs`, driven through `prover/worker.rs`)
  is embedded as an oracle: the in-worker Merkle tree is its list of leaves,
  and every `insert_leaf` / `get_root` call takes its outcome
  (`Except AspError String`, the returned root) from an explicit input.
* Relayer calls (`relayer/starknet.rs`) are likewise oracles, except for
  `watch_tx` / `send_transaction`, whose receipt-polling loop is embedded
  directly over an abstract stream of receipt-poll outcomes.
* The HTTP handlers (`api/handlers/*.rs`) are embedded as state-passing
  functions `HState → HState × Except AspError Response`: the state they
  return is the mutation they performed even when the request fails, which is
  exactly the behaviour of the source (writes before the failing step stay).
-/

namespace Zylith

/-- Equality of `Except` values is decidable when it is on both components;
used to make the oracle records and claim instances decidable. -/
instance {ε α : Type} [DecidableEq ε] [DecidableEq α] : DecidableEq (Except ε α) := fun a b =>
  match a, b with
  | .ok x, .ok y =>
      if h : x = y then isTrue (by rw [h])
      else isFalse (by intro hc; cases hc; exact h rfl)
  | .ok _, .error _ => isFalse (by intro hc; cases hc)
  | .error _, .ok _ => isFalse (by intro hc; cases hc)
  | .error e, .error f =>
      if h : e = f then isTrue (by rw [h])
      else isFalse (by intro hc; cases hc; exact h rfl)

/-- The error enum of `error.rs` (`AspError`).  Payloads of external error
types (`rusqlite::Error`, `serde_json::Error`) are carried as their display
strings. -/
inductive AspError
  | Config (msg : String)
  | InvalidInput (msg : String)
  | CommitmentNotFound (idx : Nat)
  | NullifierAlreadySpent (hash : String)
  | TreeFull
  | ProverError (msg : String)
  | WorkerUnavailable (msg : String)
  | TransactionFailed (msg : String)
  | TransactionReverted (msg : String)
  | RpcError (msg : String)
  | Database (msg : String)
  | Json (msg : String)
  | Internal (msg : String)
  deriving DecidableEq, Repr

/-- `CommitmentRow` of `db/queries.rs`: one row of the `commitments` table.
`leaf_index` is the primary key (`u32` in the source, `Nat` here). -/
structure CommitmentRow where
  leaf_index : Nat
  commitment : String
  deposit_tx : Option String
  deriving DecidableEq, Repr

/-- `NullifierRow` of `db/queries.rs`: one row of the `nullifiers` table,
keyed by `nullifier_hash`. -/
structure NullifierRow where
  nullifier_hash : String
  circuit_type : String
  tx_hash : Option String
  deriving DecidableEq, Repr

/-- One row of the `merkle_roots` table (`db/schema.rs`): an append-only log;
list order stands for the autoincrement `id` order. -/
structure MerkleRootRow where
  root : String
  leaf_count : Nat
  submit_tx : Option String
  deriving DecidableEq, Repr

/-- The SQLite store of `db/queries.rs`: the four tables.  Lists keep
insertion order (SQLite rowid order), which is all the queries below depend
on. -/
structure Database where
  commitments : List CommitmentRow
  merkle_roots : List MerkleRootRow
  nullifiers : List NullifierRow
  sync_state : List (String × String)
  deriving DecidableEq, Repr

/-- `SELECT ... FROM commitments WHERE leaf_index = ?1` (queries.rs,
`get_commitment`). -/
def Database.get_commitment (db : Database) (leaf_index : Nat) : Option CommitmentRow :=
  db.commitments.find? (fun r => r.leaf_index == leaf_index)

/-- `SELECT COUNT(*) FROM commitments` (queries.rs, `get_leaf_count`). -/
def Database.get_leaf_count (db : Database) : Nat :=
  db.commitments.length

/-- `SELECT leaf_index FROM commitments WHERE commitment = ?1` (queries.rs,
`find_commitment_leaf_index`); `query_row` yields the first matching row, and
`QueryReturnedNoRows` becomes `Ok(None)`. -/
def Database.find_commitment_leaf_index (db : Database) (commitment : String) : Option Nat :=
  (db.commitments.find? (fun r => r.commitment == commitment)).map (fun r => r.leaf_index)

/-- `insert_commitment` (queries.rs): `INSERT OR IGNORE INTO commitments ...`.
A row whose primary key `leaf_index` is already present is silently ignored;
the statement itself cannot fail, so the function always returns `Ok`. -/
def Database.insert_commitment (db : Database) (leaf_index : Nat) (commitment : String)
    (deposit_tx : Option String) : Except AspError Database :=
  Except.ok <|
    if (db.get_commitment leaf_index).isSome then db
    else { db with commitments := db.commitments ++ [⟨leaf_index, commitment, deposit_tx⟩] }

/-- `insert_root` (queries.rs): a plain `INSERT` into the append-only
`merkle_roots` log (autoincrement key, no constraint to violate). -/
def Database.insert_root (db : Database) (root : String) (leaf_count : Nat)
    (submit_tx : Option String) : Except AspError Database :=
  Except.ok { db with merkle_roots := db.merkle_roots ++ [⟨root, leaf_count, submit_tx⟩] }

/-- `SELECT root FROM merkle_roots ORDER BY id DESC LIMIT 1` (queries.rs,
`get_latest_root`). -/
def Database.get_latest_root (db : Database) : Option String :=
  (db.merkle_roots.getLast?).map (fun r => r.root)

/-- `insert_nullifier` (queries.rs): `INSERT OR IGNORE INTO nullifiers ...`,
first-write-wins on the `nullifier_hash` primary key; always `Ok`. -/
def Database.insert_nullifier (db : Database) (nullifier_hash : String) (circuit_type : String)
    (tx_hash : Option String) : Except AspError Database :=
  Except.ok <|
    if db.nullifiers.any (fun r => r.nullifier_hash == nullifier_hash) then db
    else { db with nullifiers := db.nullifiers ++ [⟨nullifier_hash, circuit_type, tx_hash⟩] }

/-- `is_nullifier_spent` (queries.rs): `SELECT COUNT(*) ... WHERE
nullifier_hash = ?1` compared against zero. -/
def Database.is_nullifier_spent (db : Database) (nullifier_hash : String) : Bool :=
  db.nullifiers.any (fun r => r.nullifier_hash == nullifier_hash)

/-- `get_nullifier` (queries.rs): the first row with the given hash, if any. -/
def Database.get_nullifier (db : Database) (nullifier_hash : String) : Option NullifierRow :=
  db.nullifiers.find? (fun r => r.nullifier_hash == nullifier_hash)

/-- `get_sync_state` (queries.rs): `SELECT value FROM sync_state WHERE key = ?1`. -/
def Database.get_sync_state (db : Database) (key : String) : Option String :=
  (db.sync_state.find? (fun kv => kv.1 == key)).map (fun kv => kv.2)

/-- `set_sync_state` (queries.rs): `INSERT OR REPLACE INTO sync_state`, i.e.
upsert on the key; always `Ok`. -/
def Database.set_sync_state (db : Database) (key value : String) : Except AspError Database :=
  Except.ok <|
    if db.sync_state.any (fun kv => kv.1 == key) then
      { db with sync_state := db.sync_state.map (fun kv => if kv.1 == key then (key, value) else kv) }
    else
      { db with sync_state := db.sync_state ++ [(key, value)] }

/-- The four mutating store operations of `db/queries.rs` (there is no other
statement writing to the store in the source: no UPDATE, no DELETE). -/
inductive StoreOp
  | insertCommitment (leaf_index : Nat) (commitment : String) (deposit_tx : Option String)
  | insertRoot (root : String) (leaf_count : Nat) (submit_tx : Option String)
  | insertNullifier (nullifier_hash : String) (circuit_type : String) (tx_hash : Option String)
  | setSyncState (key value : String)
  deriving DecidableEq, Repr

/-- Apply one store operation.  Every mutator returns `Except.ok`, so the
error branches below are unreachable; they keep the database unchanged, which
only strengthens the preservation theorems proved about `applyOp`. -/
def Database.applyOp (db : Database) (op : StoreOp) : Database :=
  match op with
  | .insertCommitment i c tx =>
      match db.insert_commitment i c tx with
      | .ok db2 => db2
      | .error _ => db
  | .insertRoot r n tx =>
      match db.insert_root r n tx with
      | .ok db2 => db2
      | .error _ => db
  | .insertNullifier h c tx =>
      match db.insert_nullifier h c tx with
      | .ok db2 => db2
      | .error _ => db
  | .setSyncState k v =>
      match db.set_sync_state k v with
      | .ok db2 => db2
      | .error _ => db

-- Preservation lemmas for the nullifier table.

theorem insert_commitment_nullifiers (db : Database) (i : Nat) (c : String) (tx : Option String)
    (db2 : Database) (h : db.insert_commitment i c tx = .ok db2) :
    db2.nullifiers = db.nullifiers := by
  simp only [Database.insert_commitment, Except.ok.injEq] at h
  split at h <;> simp [← h]

theorem insert_root_nullifiers (db : Database) (r : String) (n : Nat) (tx : Option String)
    (db2 : Database) (h : db.insert_root r n tx = .ok db2) :
    db2.nullifiers = db.nullifiers := by
  simp only [Database.insert_root, Except.ok.injEq] at h
  simp [← h]

theorem set_sync_state_nullifiers (db : Database) (k v : String)
    (db2 : Database) (h : db.set_sync_state k v = .ok db2) :
    db2.nullifiers = db.nullifiers := by
  simp only [Database.set_sync_state, Except.ok.injEq] at h
  split at h <;> simp [← h]

/-- `insert_nullifier` never removes or rewrites an existing row: lookups of
already-present hashes are unchanged. -/
theorem insert_nullifier_get_preserved (db : Database) (h c : String) (tx : Option String)
    (db2 : Database) (hok : db.insert_nullifier h c tx = .ok db2) (x : String) (row : NullifierRow)
    (hrow : db.get_nullifier x = some row) :
    db2.get_nullifier x = some row := by
  simp only [Database.insert_nullifier, Except.ok.injEq] at hok
  split at hok
  · simp [← hok, hrow]
  · simp only [← hok, Database.get_nullifier] at hrow ⊢
    simp [List.find?_append, hrow]

/-- `insert_nullifier` on an already-present hash is a no-op for the whole
table. -/
theorem insert_nullifier_present_noop (db : Database) (h c : String) (tx : Option String)
    (db2 : Database) (hok : db.insert_nullifier h c tx = .ok db2)
    (hspent : db.is_nullifier_spent h = true) :
    db2 = db := by
  simp only [Database.insert_nullifier, Except.ok.injEq] at hok
  rw [Database.is_nullifier_spent] at hspent
  rw [hspent] at hok
  simp at hok
  exact hok.symm

theorem spent_of_get_nullifier (db : Database) (x : String) (row : NullifierRow)
    (h : db.get_nullifier x = some row) : db.is_nullifier_spent x = true := by
  simp only [Database.get_nullifier] at h
  simp only [Database.is_nullifier_spent, List.any_eq_true]
  exact ⟨row, List.mem_of_find?_eq_some h, by
    have := List.find?_some h
    simpa using this⟩

theorem get_nullifier_of_spent (db : Database) (x : String)
    (h : db.is_nullifier_spent x = true) : ∃ row, db.get_nullifier x = some row := by
  simp only [Database.is_nullifier_spent, List.any_eq_true] at h
  obtain ⟨row, hmem, hx⟩ := h
  simp only [Database.get_nullifier]
  have : (db.nullifiers.find? (fun r => r.nullifier_hash == x)).isSome := by
    rw [List.find?_isSome]
    exact ⟨row, hmem, hx⟩
  obtain ⟨r, hr⟩ := Option.isSome_iff_exists.mp this
  exact ⟨r, hr⟩

/-- A single store operation preserves every existing nullifier row. -/
theorem applyOp_get_nullifier_preserved (db : Database) (op : StoreOp) (x : String)
    (row : NullifierRow) (hrow : db.get_nullifier x = some row) :
    (db.applyOp op).get_nullifier x = some row := by
  cases op with
  | insertCommitment i c tx =>
      simp only [Database.applyOp]
      split
      · next db2 heq =>
          rw [Database.get_nullifier, insert_commitment_nullifiers db i c tx db2 heq]
          exact hrow
      · exact hrow
  | insertRoot r n tx =>
      simp only [Database.applyOp]
      split
      · next db2 heq =>
          rw [Database.get_nullifier, insert_root_nullifiers db r n tx db2 heq]
          exact hrow
      · exact hrow
  | insertNullifier h c tx =>
      simp only [Database.applyOp]
      split
      · next db2 heq => exact insert_nullifier_get_preserved db h c tx db2 heq x row hrow
      · exact hrow
  | setSyncState k v =>
      simp only [Database.applyOp]
      split
      · next db2 heq =>
          rw [Database.get_nullifier, set_sync_state_nullifiers db k v db2 heq]
          exact hrow
      · exact hrow

theorem foldl_applyOp_get_nullifier_preserved (ops : List StoreOp) (db : Database) (x : String)
    (row : NullifierRow) (hrow : db.get_nullifier x = some row) :
    (ops.foldl Database.applyOp db).get_nullifier x = some row := by
  induction ops generalizing db with
  | nil => exact hrow
  | cons op rest ih =>
      exact ih (db.applyOp op) (applyOp_get_nullifier_preserved db op x row hrow)

/-! Hex and decimal string conversions of `api/handlers/deposit.rs`.
`BigUint::from_str_radix` is embedded for the plain digit strings the system
exchanges (an exotic leading sign accepted by the `num` crate is not
modelled). -/

/-- Numeric value of one hex digit, lower or upper case. -/
def hexDigitVal? (c : Char) : Option Nat :=
  if 48 ≤ c.toNat ∧ c.toNat ≤ 57 then some (c.toNat - 48)
  else if 97 ≤ c.toNat ∧ c.toNat ≤ 102 then some (c.toNat - 87)
  else if 65 ≤ c.toNat ∧ c.toNat ≤ 70 then some (c.toNat - 55)
  else none

/-- `BigUint::from_str_radix(s, 16)`: non-empty all-hex-digit strings parse. -/
def parseHexNat? (s : String) : Option Nat :=
  if s.isEmpty then none
  else s.data.foldl (fun acc c => acc.bind (fun n => (hexDigitVal? c).map (fun d => 16 * n + d)))
    (some 0)

/-- The prefix stripping of `commitment_to_decimal` (deposit.rs):
`strip_prefix("0x").or_else(.. "0X").unwrap_or(hex)`, written over the
character list. -/
def strip0x (s : String) : String :=
  match s.data with
  | '0' :: 'x' :: rest => String.mk rest
  | '0' :: 'X' :: rest => String.mk rest
  | _ => s

/-- Lowercase hex digits of a natural number, as produced by
`BigUint::to_str_radix(16)`. -/
def natToHex (n : Nat) : String :=
  String.mk (Nat.toDigits 16 n)

/-- `commitment_to_decimal` (deposit.rs): hex (optionally `0x`/`0X`-prefixed)
to decimal; a parse failure is `InvalidInput`.  The parse-error display text
of the `num` crate is abbreviated to a fixed message. -/
def commitment_to_decimal (hex : String) : Except AspError String :=
  match parseHexNat? (strip0x hex) with
  | some n => .ok (toString n)
  | none => .error (.InvalidInput "Invalid hex commitment: invalid digit")

/-- `BigUint::from_str_radix(s, 10)`: non-empty all-digit strings parse
(also the semantics of `str::parse::<u64>` for in-range input, used by the
event syncer for the stored block cursor). -/
def parseDecNat? (s : String) : Option Nat :=
  if s.isEmpty then none
  else s.data.foldl
    (fun acc c => acc.bind (fun n => if c.isDigit then some (10 * n + (c.toNat - 48)) else none))
    (some 0)

/-- `decimal_to_hex` (deposit.rs): decimal to `0x`-prefixed hex; a string
that does not parse is returned unchanged. -/
def decimal_to_hex (dec : String) : String :=
  match parseDecNat? dec with
  | some n => "0x" ++ natToHex n
  | none => dec

/-! The deposit pipeline, `api/handlers/deposit.rs`. -/

/-- `DepositRequest` of `api/types.rs`. -/
structure DepositRequest where
  commitment : String
  deriving DecidableEq, Repr

/-- `DepositResponse` of `api/types.rs`. -/
structure DepositResponse where
  status : String
  leaf_index : Nat
  tx_hash : String
  root : String
  root_tx_hash : String
  deriving DecidableEq, Repr

/-- The mutable state a handler sees: the store and the in-worker Merkle
tree, the latter embedded as its list of leaves (the worker process itself,
`worker/worker.mjs`, is outside `src/`). -/
structure HState where
  db : Database
  tree : List String
  deriving DecidableEq, Repr

/-- Oracle for the external calls of one deposit request: the outcome of
`relayer.deposit`, of the worker `insert_leaf` command (an `Ok` carries the
root string the worker answered), and of `relayer.submit_merkle_root`. -/
structure DepositEnv where
  depositTx : Except AspError String
  insertLeaf : Except AspError String
  rootTx : Except AspError String
  deriving DecidableEq, Repr

/-- The `deposit` handler (deposit.rs), step for step: empty-commitment
check; on-chain deposit; `insert_leaf` of the decimal conversion (the source
converts the commitment twice with the identical result; the conversion is
shared here); `leaf_index = get_leaf_count()` read from the store AFTER the
tree append; `db_leaf_index = if leaf_index > 0 then leaf_index - 1 else 0`;
`insert_commitment`; root submission; `insert_root(root, leaf_index, ..)`.
On failure the state mutated so far is kept, as in the source. -/
def deposit (env : DepositEnv) (st : HState) (req : DepositRequest) :
    HState × Except AspError DepositResponse :=
  if req.commitment.isEmpty then
    (st, .error (.InvalidInput "commitment is required"))
  else
    match env.depositTx with
    | .error e => (st, .error e)
    | .ok deposit_tx =>
      match commitment_to_decimal req.commitment with
      | .error e => (st, .error e)
      | .ok dec =>
        match env.insertLeaf with
        | .error e => (st, .error e)
        | .ok root =>
          let tree2 := st.tree ++ [dec]
          let leaf_index := st.db.get_leaf_count
          let db_leaf_index := if leaf_index > 0 then leaf_index - 1 else 0
          match st.db.insert_commitment db_leaf_index dec (some deposit_tx) with
          | .error e => (⟨st.db, tree2⟩, .error e)
          | .ok db1 =>
            match env.rootTx with
            | .error e => (⟨db1, tree2⟩, .error e)
            | .ok root_tx =>
              match db1.insert_root root leaf_index (some root_tx) with
              | .error e => (⟨db1, tree2⟩, .error e)
              | .ok db2 =>
                (⟨db2, tree2⟩,
                  .ok ⟨"confirmed", db_leaf_index, deposit_tx, decimal_to_hex root, root_tx⟩)

/-- The store already holding one commitment at leaf index 0. -/
def c2db : Database :=
  ⟨[⟨0, "aaa", none⟩], [], [], []⟩

/-- C2, counterexample: with a row `(0, "aaa")` present, inserting the
DIFFERENT commitment `"bbb"` at leaf index 0 returns `Ok` with the store
unchanged — `INSERT OR IGNORE` silently drops the write — whereas the claim
says the call fails with a conflict error.  (No conflict kind even exists in
`AspError`.) -/
theorem C2_conflicting_insert_is_silently_ignored :
    c2db.insert_commitment 0 "bbb" none = Except.ok c2db := by
  decide

/-- C2 (amended): `insert_commitment` on an occupied `leaf_index` succeeds
and leaves the store unchanged, whether the new commitment equals the stored
one or not; no conflict error is raised and the stored row is never
overwritten. -/
theorem C2_insert_commitment_occupied_noop (db : Database) (i : Nat) (c : String)
    (tx : Option String) (h : (db.get_commitment i).isSome = true) :
    db.insert_commitment i c tx = Except.ok db := by
  simp [Database.insert_commitment, h]

/-- C2 witness: the amended theorem applied at the concrete store `c2db`,
identical-commitment case. -/
theorem C2_insert_commitment_occupied_noop_witness :
    (c2db.get_commitment 0).isSome = true ∧
      c2db.insert_commitment 0 "aaa" none = Except.ok c2db :=
  ⟨by decide, C2_insert_commitment_occupied_noop c2db 0 "aaa" none (by decide)⟩

/-- C1: evaluation of the deposit pipeline at the claim's own scenario
(deposit `0xaaaa` then `0xbbbb` on an empty store, all external calls
succeeding).  The first deposit answers `leaf_index = 0` but records the root
row with `leaf_count = 0` (the claim says `leaf_index + 1 = 1`); the second
deposit computes `db_leaf_index = get_leaf_count() - 1 = 0`, answers
`leaf_index = 0` instead of 1, and its `INSERT OR IGNORE` at the occupied
index 0 silently drops the row, so the store still holds a single commitment
(`0xaaaa` in decimal, 43690).  This also contradicts the repository's own
integration test `test_deposit_two_sequential`. -/
theorem C1_second_deposit_diverges :
    (deposit ⟨.ok "0xdep1", .ok "r1", .ok "0xroot1"⟩ ⟨⟨[], [], [], []⟩, []⟩ ⟨"0xaaaa"⟩).2
        = .ok ⟨"confirmed", 0, "0xdep1", "r1", "0xroot1"⟩ ∧
    (deposit ⟨.ok "0xdep1", .ok "r1", .ok "0xroot1"⟩ ⟨⟨[], [], [], []⟩, []⟩
        ⟨"0xaaaa"⟩).1.db.merkle_roots = [⟨"r1", 0, some "0xroot1"⟩] ∧
    (deposit ⟨.ok "0xdep2", .ok "r2", .ok "0xroot2"⟩
        (deposit ⟨.ok "0xdep1", .ok "r1", .ok "0xroot1"⟩ ⟨⟨[], [], [], []⟩, []⟩ ⟨"0xaaaa"⟩).1
        ⟨"0xbbbb"⟩).2
        = .ok ⟨"confirmed", 0, "0xdep2", "r2", "0xroot2"⟩ ∧
    (deposit ⟨.ok "0xdep2", .ok "r2", .ok "0xroot2"⟩
        (deposit ⟨.ok "0xdep1", .ok "r1", .ok "0xroot1"⟩ ⟨⟨[], [], [], []⟩, []⟩ ⟨"0xaaaa"⟩).1
        ⟨"0xbbbb"⟩).1.db.commitments = [⟨0, "43690", some "0xdep1"⟩] := by
  refine ⟨?_, ?_, ?_, ?_⟩ <;> rfl

/-! The nullifier query endpoint, `api/handlers/nullifier.rs`. -/

/-- `NullifierResponse` of `api/types.rs`. -/
structure NullifierResponse where
  nullifier_hash : String
  spent : Bool
  circuit_type : Option String
  tx_hash : Option String
  deriving DecidableEq, Repr

/-- The `get_nullifier` handler (nullifier.rs): one store read, no write.
The store is threaded through to state that explicitly.  The only fallible
step of the source is the store read itself (`state.db.get_nullifier(&hash)?`,
connection-level only), so the handler result carries no error here. -/
def get_nullifier_handler (db : Database) (hash : String) : Database × NullifierResponse :=
  match db.get_nullifier hash with
  | some row => (db, ⟨row.nullifier_hash, true, some row.circuit_type, row.tx_hash⟩)
  | none => (db, ⟨hash, false, none, none⟩)

/-- A looked-up nullifier row carries the queried hash (the lookup is an
equality filter on the key). -/
theorem get_nullifier_hash_eq (db : Database) (x : String) (row : NullifierRow)
    (h : db.get_nullifier x = some row) : row.nullifier_hash = x := by
  simp only [Database.get_nullifier] at h
  have := List.find?_some h
  simpa using this

/-- C9: for every hash, the nullifier endpoint mutates nothing and always
answers; it echoes the queried hash; a stored row yields
`spent = true` with that row's `circuit_type` and `tx_hash`; an absent row
yields `spent = false` with both fields `None` — never a 404. -/
theorem C9_get_nullifier_endpoint (db : Database) (hash : String) :
    (get_nullifier_handler db hash).1 = db ∧
    (get_nullifier_handler db hash).2.nullifier_hash = hash ∧
    (∀ row, db.get_nullifier hash = some row →
      (get_nullifier_handler db hash).2 = ⟨row.nullifier_hash, true, some row.circuit_type, row.tx_hash⟩) ∧
    (db.get_nullifier hash = none →
      (get_nullifier_handler db hash).2 = ⟨hash, false, none, none⟩) := by
  refine ⟨?_, ?_, ?_, ?_⟩
  · unfold get_nullifier_handler
    cases db.get_nullifier hash <;> simp
  · unfold get_nullifier_handler
    cases h : db.get_nullifier hash with
    | none => simp
    | some row => simpa using get_nullifier_hash_eq db hash row h
  · intro row h
    unfold get_nullifier_handler
    rw [h]
  · intro h
    unfold get_nullifier_handler
    rw [h]

/-- A store with one nullifier row, the spec's own example. -/
def c9db : Database :=
  ⟨[], [], [⟨"12345", "membership", some "0xabc"⟩], []⟩

/-- C9 witness: the endpoint theorem applied at the concrete store `c9db`. -/
theorem C9_get_nullifier_endpoint_witness :
    (get_nullifier_handler c9db "12345").2
      = ⟨"12345", true, some "membership", some "0xabc"⟩ :=
  (C9_get_nullifier_endpoint c9db "12345").2.2.1 ⟨"12345", "membership", some "0xabc"⟩ (by decide)

/-! The commitment lookup endpoint, `api/handlers/sync.rs`. -/

/-- `CommitmentWithIndex` of `api/handlers/sync.rs`. -/
structure CommitmentWithIndex where
  commitment : String
  leaf_index : Option Nat
  deriving DecidableEq, Repr

/-- The `sync_commitments` handler (sync.rs): for each requested commitment,
in request order, look up its leaf index; the loop that pushes one result per
item is the map below.  No store write occurs; the store is threaded through
to state that. -/
def sync_commitments (db : Database) (commitments : List String) :
    Database × List CommitmentWithIndex :=
  (db, commitments.map (fun c => ⟨c, db.find_commitment_leaf_index c⟩))

theorem find_commitment_leaf_index_isSome (db : Database) (c : String) :
    (db.find_commitment_leaf_index c).isSome = true ↔
      ∃ row ∈ db.commitments, row.commitment = c := by
  simp only [Database.find_commitment_leaf_index, Option.isSome_map']
  rw [List.find?_isSome]
  simp

theorem find_commitment_leaf_index_some (db : Database) (c : String) (i : Nat)
    (h : db.find_commitment_leaf_index c = some i) :
    ∃ row ∈ db.commitments, row.commitment = c ∧ row.leaf_index = i := by
  simp only [Database.find_commitment_leaf_index, Option.map_eq_some'] at h
  obtain ⟨row, hfind, hidx⟩ := h
  refine ⟨row, List.mem_of_find?_eq_some hfind, ?_, hidx⟩
  have := List.find?_some hfind
  simpa using this

/-- C10: the endpoint answers exactly one entry per requested commitment, in
request order, echoing each commitment string; an entry's `leaf_index` is
`some` exactly when the store holds a row with that commitment text, and any
returned index is the `leaf_index` of such a row; the store is untouched. -/
theorem C10_sync_commitments_lookup (db : Database) (cs : List String) :
    (sync_commitments db cs).1 = db ∧
    (sync_commitments db cs).2.length = cs.length ∧
    (∀ k c, cs.get? k = some c →
      ∃ r, (sync_commitments db cs).2.get? k = some r ∧
        r.commitment = c ∧
        (r.leaf_index.isSome = true ↔ ∃ row ∈ db.commitments, row.commitment = c) ∧
        (∀ i, r.leaf_index = some i →
          ∃ row ∈ db.commitments, row.commitment = c ∧ row.leaf_index = i)) := by
  refine ⟨rfl, by simp [sync_commitments], ?_⟩
  intro k c hk
  refine ⟨⟨c, db.find_commitment_leaf_index c⟩, ?_, rfl, ?_, ?_⟩
  · have hk2 : cs[k]? = some c := by simpa [List.get?_eq_getElem?] using hk
    simp [sync_commitments, List.getElem?_map, List.get?_eq_getElem?, hk2]
  · exact find_commitment_leaf_index_isSome db c
  · intro i hi
    exact find_commitment_leaf_index_some db c i hi

/-- C10 witness: the lookup theorem applied at a concrete store and request
list (one present and one absent commitment). -/
theorem C10_sync_commitments_lookup_witness :
    ∃ r, (sync_commitments ⟨[⟨0, "77", none⟩], [], [], []⟩ ["77", "88"]).2.get? 0 = some r ∧
      r.commitment = "77" ∧
      (r.leaf_index.isSome = true ↔
        ∃ row ∈ (⟨[⟨0, "77", none⟩], [], [], []⟩ : Database).commitments, row.commitment = "77") ∧
      (∀ i, r.leaf_index = some i →
        ∃ row ∈ (⟨[⟨0, "77", none⟩], [], [], []⟩ : Database).commitments,
          row.commitment = "77" ∧ row.leaf_index = i) :=
  (C10_sync_commitments_lookup ⟨[⟨0, "77", none⟩], [], [], []⟩ ["77", "88"]).2.2 0 "77" (by decide)

/-! The worker wire protocol, `prover/worker.rs` (`send_command`). -/

/-- `WorkerResponse` of `prover/worker.rs`; `data` carries the raw JSON
payload, uninterpreted here. -/
structure WorkerResponse where
  id : String
  ok : Bool
  data : String
  error : Option String
  deriving DecidableEq, Repr

/-- What the transport did for one command: stdin write/flush failure,
stdout read failure, a line that does not parse as a `WorkerResponse`, or a
parsed response.  (Serialisation of the request cannot fail for these field
types.) -/
inductive WireOutcome
  | writeErr (msg : String)
  | readErr (msg : String)
  | malformed (msg : String)
  | response (r : WorkerResponse)
  deriving DecidableEq, Repr

/-- `send_command` (worker.rs) after the request id is drawn: transport
failures become `WorkerUnavailable`; a parsed response is checked for the id
echo (`Internal` on mismatch) and then for `ok` (`ProverError` on a refusal);
otherwise the payload is returned. -/
def send_command (reqId : String) (wire : WireOutcome) : Except AspError String :=
  match wire with
  | .writeErr m => .error (.WorkerUnavailable ("Failed to write to worker: " ++ m))
  | .readErr m => .error (.WorkerUnavailable ("Failed to read from worker: " ++ m))
  | .malformed m => .error (.WorkerUnavailable ("Invalid worker response: " ++ m))
  | .response r =>
      if r.id ≠ reqId then
        .error (.Internal ("Worker response ID mismatch: expected " ++ reqId ++ ", got " ++ r.id))
      else if r.ok = false then
        .error (.ProverError (r.error.getD "Unknown worker error"))
      else
        .ok r.data

/-- The two error kinds the spec reserves for worker failures. -/
def isWorkerFailureKind : AspError → Bool
  | .ProverError _ => true
  | .WorkerUnavailable _ => true
  | _ => false

/-- C4, counterexample: a well-formed `ok:true` response whose id does not
echo the request makes the command fail with `Internal` — which is neither
`ProverError` nor `WorkerUnavailable`, contrary to the claim. -/
theorem C4_id_mismatch_is_internal_error :
    send_command "a" (.response ⟨"b", true, "", none⟩)
        = .error (.Internal "Worker response ID mismatch: expected a, got b") ∧
      isWorkerFailureKind (.Internal "Worker response ID mismatch: expected a, got b") = false := by
  exact ⟨by decide, by decide⟩

/-- C4 (amended): an id mismatch does fail the command, but with the
`Internal` kind (HTTP 500), not one of the worker-failure kinds; a transport
failure or a malformed line fails with `WorkerUnavailable`, and an `ok:false`
reply fails with `ProverError`. -/
theorem C4_send_command_error_kinds (reqId : String) (r : WorkerResponse) (m mw mr : String) :
    (r.id ≠ reqId →
      send_command reqId (.response r)
          = .error (.Internal ("Worker response ID mismatch: expected " ++ reqId ++ ", got " ++ r.id)) ∧
        ∀ e, send_command reqId (.response r) = .error e → isWorkerFailureKind e = false) ∧
    (send_command reqId (.malformed m)
      = .error (.WorkerUnavailable ("Invalid worker response: " ++ m))) ∧
    (send_command reqId (.writeErr mw)
      = .error (.WorkerUnavailable ("Failed to write to worker: " ++ mw))) ∧
    (send_command reqId (.readErr mr)
      = .error (.WorkerUnavailable ("Failed to read from worker: " ++ mr))) ∧
    (r.id = reqId → r.ok = false →
      send_command reqId (.response r) = .error (.ProverError (r.error.getD "Unknown worker error"))) := by
  refine ⟨?_, rfl, rfl, rfl, ?_⟩
  · intro hne
    constructor
    · simp [send_command, hne]
    · intro e he
      simp [send_command, hne] at he
      rw [← he]
      rfl
  · intro hid hok
    simp [send_command, hid, hok]

/-- C4 witness: the amended theorem applied at a concrete mismatching
response. -/
theorem C4_send_command_error_kinds_witness :
    send_command "a" (.response ⟨"b", true, "{}", none⟩)
        = .error (.Internal ("Worker response ID mismatch: expected " ++ "a" ++ ", got " ++ "b")) :=
  ((C4_send_command_error_kinds "a" ⟨"b", true, "{}", none⟩ "m" "w" "r").1 (by decide)).1

/-! Receipt polling of the relayer, `relayer/starknet.rs` (`watch_tx`,
`send_transaction`). -/

/-- One attempt of `provider.get_transaction_receipt`: the call failed (the
transaction is not yet included — transient), or a receipt with a terminal
execution status. -/
inductive ReceiptPoll
  | fetchErr
  | succeeded
  | reverted (reason : Option String)
  deriving DecidableEq, Repr

/-- `max_retries` of `watch_tx`. -/
def max_receipt_retries : Nat := 60

/-- The 2-second `delay` between receipt polls of `watch_tx`. -/
def receipt_poll_delay_secs : Nat := 2

/-- `format!("{:#x}", tx_hash)` on a felt. -/
def feltHexStr (n : Nat) : String := "0x" ++ natToHex n

/-- The polling loop body of `watch_tx` over an abstract stream of poll
outcomes: attempt `i` with `fuel` iterations left.  A terminal receipt
returns immediately; a fetch failure sleeps `delay` and retries; exhausted
retries give `TransactionFailed`. -/
def watch_tx_go (polls : Nat → ReceiptPoll) (txHash : Nat) : Nat → Nat → Except AspError Unit
  | _, 0 => .error (.TransactionFailed
      ("Transaction " ++ feltHexStr txHash ++ " not confirmed after "
        ++ toString (max_receipt_retries * receipt_poll_delay_secs) ++ "s"))
  | i, fuel + 1 =>
      match polls i with
      | .succeeded => .ok ()
      | .reverted r => .error (.TransactionReverted
          ("Transaction " ++ feltHexStr txHash ++ " reverted: " ++ r.getD "unknown reason"))
      | .fetchErr => watch_tx_go polls txHash (i + 1) fuel

/-- `watch_tx` (starknet.rs): up to `max_retries = 60` receipt polls. -/
def watch_tx (polls : Nat → ReceiptPoll) (txHash : Nat) : Except AspError Unit :=
  watch_tx_go polls txHash 0 max_receipt_retries

/-- `send_transaction` (starknet.rs): `execution.send()` (its provider error
display string becomes `TransactionFailed`), then `watch_tx`, and only then
the transaction hash is returned. -/
def send_transaction (sendResult : Except String Nat) (polls : Nat → ReceiptPoll) :
    Except AspError String :=
  match sendResult with
  | .error e => .error (.TransactionFailed e)
  | .ok txHash =>
      match watch_tx polls txHash with
      | .error e => .error e
      | .ok _ => .ok (feltHexStr txHash)

theorem watch_tx_go_all_fetchErr (polls : Nat → ReceiptPoll) (txHash : Nat) :
    ∀ fuel i, (∀ j, j < fuel → polls (i + j) = .fetchErr) →
      watch_tx_go polls txHash i fuel = .error (.TransactionFailed
        ("Transaction " ++ feltHexStr txHash ++ " not confirmed after "
          ++ toString (max_receipt_retries * receipt_poll_delay_secs) ++ "s")) := by
  intro fuel
  induction fuel with
  | zero => intro i _; rfl
  | succ n ih =>
      intro i hall
      have h0 : polls i = .fetchErr := by simpa using hall 0 (Nat.succ_pos n)
      simp only [watch_tx_go, h0]
      exact ih (i + 1) (fun j hj => by
        have := hall (j + 1) (Nat.succ_lt_succ hj)
        simpa [Nat.add_assoc, Nat.add_comm 1 j] using this)

theorem watch_tx_go_first_decisive (polls : Nat → ReceiptPoll) (txHash : Nat) :
    ∀ fuel i k, k < fuel → (∀ j, j < k → polls (i + j) = .fetchErr) →
      (polls (i + k) = .succeeded → watch_tx_go polls txHash i fuel = .ok ()) ∧
      (∀ r, polls (i + k) = .reverted r → watch_tx_go polls txHash i fuel
        = .error (.TransactionReverted
            ("Transaction " ++ feltHexStr txHash ++ " reverted: " ++ r.getD "unknown reason"))) := by
  intro fuel
  induction fuel with
  | zero => intro i k hk; omega
  | succ n ih =>
      intro i k hk hbefore
      cases k with
      | zero =>
          constructor
          · intro hs
            simp only [watch_tx_go]
            rw [show i + 0 = i by omega] at hs
            rw [hs]
          · intro r hr
            simp only [watch_tx_go]
            rw [show i + 0 = i by omega] at hr
            rw [hr]
      | succ k2 =>
          have h0 : polls i = .fetchErr := by simpa using hbefore 0 (Nat.succ_pos k2)
          have step : ∀ j, j < k2 → polls ((i + 1) + j) = .fetchErr := fun j hj => by
            have := hbefore (j + 1) (Nat.succ_lt_succ hj)
            simpa [Nat.add_assoc, Nat.add_comm 1 j] using this
          have hk2 : k2 < n := Nat.lt_of_succ_lt_succ hk
          have ihk := ih (i + 1) k2 hk2 step
          have hshift : (i + 1) + k2 = i + (k2 + 1) := by omega
          constructor
          · intro hs
            simp only [watch_tx_go, h0]
            exact ihk.1 (by rw [hshift]; exact hs)
          · intro r hr
            simp only [watch_tx_go, h0]
            exact ihk.2 r (by rw [hshift]; exact hr)

theorem watch_tx_go_ok_inversion (polls : Nat → ReceiptPoll) (txHash : Nat) :
    ∀ fuel i, watch_tx_go polls txHash i fuel = .ok () →
      ∃ k, k < fuel ∧ (∀ j, j < k → polls (i + j) = .fetchErr) ∧ polls (i + k) = .succeeded := by
  intro fuel
  induction fuel with
  | zero => intro i h; exact absurd h (by simp [watch_tx_go])
  | succ n ih =>
      intro i h
      simp only [watch_tx_go] at h
      cases hp : polls i with
      | succeeded =>
          exact ⟨0, Nat.succ_pos n, fun j hj => absurd hj (Nat.not_lt_zero j), by
            rw [show i + 0 = i by omega]; exact hp⟩
      | reverted r => rw [hp] at h; exact absurd h (by simp)
      | fetchErr =>
          rw [hp] at h
          obtain ⟨k, hk, hbefore, hdec⟩ := ih (i + 1) h
          refine ⟨k + 1, Nat.succ_lt_succ hk, ?_, ?_⟩
          · intro j hj
            cases j with
            | zero => rw [show i + 0 = i by omega]; exact hp
            | succ j2 =>
                have := hbefore j2 (Nat.lt_of_succ_lt_succ hj)
                rw [show i + (j2 + 1) = (i + 1) + j2 by omega]
                exact this
          · rw [show i + (k + 1) = (i + 1) + k by omega]
            exact hdec

/-- C7: a relayer submission yields a hash only after a terminal receipt.
The loop polls at most 60 times with a 2-second delay; if all 60 polls fail
to fetch a receipt the result is `TransactionFailed`; fetch failures before
the first terminal receipt are retried; a `Reverted` execution status gives
`TransactionReverted`; a `Succeeded` status gives success, and
`send_transaction` returns the (hex) transaction hash exactly in that case. -/
theorem C7_send_transaction_terminal_receipt (polls : Nat → ReceiptPoll) (txHash : Nat)
    (sendResult : Except String Nat) :
    ((∀ j, j < max_receipt_retries → polls j = .fetchErr) →
      watch_tx polls txHash = .error (.TransactionFailed
        ("Transaction " ++ feltHexStr txHash ++ " not confirmed after "
          ++ toString (max_receipt_retries * receipt_poll_delay_secs) ++ "s"))) ∧
    (∀ k, k < max_receipt_retries → (∀ j, j < k → polls j = .fetchErr) →
      (polls k = .succeeded → watch_tx polls txHash = .ok ()) ∧
      (∀ r, polls k = .reverted r → watch_tx polls txHash
        = .error (.TransactionReverted
            ("Transaction " ++ feltHexStr txHash ++ " reverted: " ++ r.getD "unknown reason")))) ∧
    (∀ s, send_transaction sendResult polls = .ok s →
      ∃ txh, sendResult = .ok txh ∧ s = feltHexStr txh ∧
        ∃ k, k < max_receipt_retries ∧ (∀ j, j < k → polls j = .fetchErr) ∧
          polls k = .succeeded) := by
  refine ⟨?_, ?_, ?_⟩
  · intro hall
    exact watch_tx_go_all_fetchErr polls txHash max_receipt_retries 0
      (fun j hj => by simpa using hall j hj)
  · intro k hk hbefore
    have := watch_tx_go_first_decisive polls txHash max_receipt_retries 0 k hk
      (fun j hj => by simpa using hbefore j hj)
    simpa [watch_tx] using this
  · intro s hs
    unfold send_transaction at hs
    cases hsend : sendResult with
    | error e => rw [hsend] at hs; exact absurd hs (by simp)
    | ok txh =>
        rw [hsend] at hs
        have hs2 : (match watch_tx polls txh with
            | Except.error e => (Except.error e : Except AspError String)
            | Except.ok _ => Except.ok (feltHexStr txh)) = Except.ok s := hs
        cases hw : watch_tx polls txh with
        | error e => rw [hw] at hs2; exact absurd hs2 (by simp)
        | ok u =>
            rw [hw] at hs2
            refine ⟨txh, rfl, by simpa using hs2.symm, ?_⟩
            obtain ⟨k, hk, hb, hd⟩ := watch_tx_go_ok_inversion polls txh max_receipt_retries 0
              (by cases u; exact hw)
            exact ⟨k, hk, fun j hj => by simpa using hb j hj, by simpa using hd⟩

/-- C7 witness: the theorem applied at a stream whose first poll misses the
receipt and whose second poll finds a succeeded receipt. -/
theorem C7_send_transaction_terminal_receipt_witness :
    watch_tx (fun k => if k = 0 then ReceiptPoll.fetchErr else ReceiptPoll.succeeded) 5 = .ok () :=
  ((C7_send_transaction_terminal_receipt
      (fun k => if k = 0 then ReceiptPoll.fetchErr else ReceiptPoll.succeeded) 5
      (.ok 5)).2.1 1 (by decide) (fun j hj => by interval_cases j; rfl)).1 (by decide)

/-! The event syncer, `sync/events.rs`. -/

/-- The `CommitmentAdded` event selector.  Selectors are `sn_keccak` values
in the source; they are embedded as opaque distinct strings. -/
def commitment_added_selector : String := "CommitmentAdded"

/-- The `NullifierSpent` event selector. -/
def nullifier_spent_selector : String := "NullifierSpent"

/-- `EmittedEvent`: selectors in `keys`, felt252 payloads in `data`. -/
structure EmittedEvent where
  keys : List String
  data : List Nat
  deriving DecidableEq, Repr

/-- `felts_to_decimal` (events.rs): reconstruct `(high << 128) | low` and
print it in decimal. -/
def felts_to_decimal (low high : Nat) : String :=
  toString ((high <<< 128) ||| low)

/-- `felt_to_u32` (events.rs): the low 4 big-endian bytes, i.e. the value
modulo 2^32. -/
def felt_to_u32 (felt : Nat) : Nat :=
  felt % 4294967296

/-- Parsed `CommitmentAdded` event. -/
structure CommitmentAddedEvent where
  commitment_decimal : String
  leaf_index : Nat
  deriving DecidableEq, Repr

/-- `parse_commitment_added` (events.rs): data layout
`[commitment_low, commitment_high, leaf_index, new_root_low, new_root_high]`;
shorter data is logged and ignored (`None`). -/
def parse_commitment_added (event : EmittedEvent) : Option CommitmentAddedEvent :=
  if event.data.length < 5 then none
  else some ⟨felts_to_decimal (event.data.getD 0 0) (event.data.getD 1 0),
    felt_to_u32 (event.data.getD 2 0)⟩

/-- `parse_nullifier_spent` (events.rs): data layout
`[nullifier_hash_low, nullifier_hash_high]`; the parsed hash is returned
directly (the source wraps it in a one-field struct). -/
def parse_nullifier_spent (event : EmittedEvent) : Option String :=
  if event.data.length < 2 then none
  else some (felts_to_decimal (event.data.getD 0 0) (event.data.getD 1 0))

/-- One answer of `provider.get_events`: the page's events and whether a
continuation token came with it. -/
structure EventsPage where
  events : List EmittedEvent
  continuation : Bool
  deriving DecidableEq, Repr

/-- The per-event dispatch of `poll_events` (events.rs): collect a new leaf
when the store has no row at the event's leaf index, and a new nullifier
when the hash is not yet spent; the store is only read during collection. -/
def collect_from_events (db : Database) (events : List EmittedEvent)
    (acc : List (Nat × String) × List String) : List (Nat × String) × List String :=
  events.foldl (fun acc2 event =>
    match event.keys with
    | [] => acc2
    | sel :: _ =>
        if sel = commitment_added_selector then
          match parse_commitment_added event with
          | some parsed =>
              if (db.get_commitment parsed.leaf_index).isSome then acc2
              else (acc2.1 ++ [(parsed.leaf_index, parsed.commitment_decimal)], acc2.2)
          | none => acc2
        else if sel = nullifier_spent_selector then
          match parse_nullifier_spent event with
          | some n => if db.is_nullifier_spent n then acc2 else (acc2.1, acc2.2 ++ [n])
          | none => acc2
        else acc2) acc

/-- The paging loop of `poll_events`: consume `get_events` answers until a
fetch fails or a page arrives without continuation token (an exhausted answer
list also ends the loop). -/
def collect_events (db : Database) :
    List (Except AspError EventsPage) → List (Nat × String) × List String →
      Except AspError (List (Nat × String) × List String)
  | [], acc => .ok acc
  | pageRes :: rest, acc =>
      match pageRes with
      | .error e => .error e
      | .ok page =>
          let acc2 := collect_from_events db page.events acc
          if page.continuation then collect_events db rest acc2
          else .ok acc2

/-- The batch application of collected leaves (events.rs): for each,
`insert_commitment(leaf_index, commitment, None)` then the worker
`insert_leaf` (whose outcome is drawn from the oracle list; its returned root
is discarded by the source; an exhausted oracle stands for success).  A
failure stops the loop, keeping the mutations already made. -/
def apply_new_leaves : List (Except AspError String) → Database → List String →
    List (Nat × String) → Database × List String × Option AspError
  | _, db, tree, [] => (db, tree, none)
  | leafResults, db, tree, (i, c) :: rest =>
      match db.insert_commitment i c none with
      | .error e => (db, tree, some e)
      | .ok db2 =>
          match leafResults with
          | .error e :: _ => (db2, tree, some e)
          | .ok _root :: restResults => apply_new_leaves restResults db2 (tree ++ [c]) rest
          | [] => apply_new_leaves [] db2 (tree ++ [c]) rest

/-- The batch insertion of collected nullifiers with circuit `"synced"`. -/
def apply_new_nullifiers : Database → List String → Database × Option AspError
  | db, [] => (db, none)
  | db, n :: rest =>
      match db.insert_nullifier n "synced" none with
      | .error e => (db, some e)
      | .ok db2 => apply_new_nullifiers db2 rest

/-- `poll_events` (events.rs): collect from the event pages, then apply the
new leaves and the new nullifiers; on success the two counts are returned.
The block range only parametrises the chain query, which the page oracle
already answers. -/
def poll_events (pages : List (Except AspError EventsPage))
    (leafResults : List (Except AspError String)) (db : Database) (tree : List String) :
    Database × List String × Except AspError (Nat × Nat) :=
  match collect_events db pages ([], []) with
  | .error e => (db, tree, .error e)
  | .ok (newLeaves, newNullifiers) =>
      match apply_new_leaves leafResults db tree newLeaves with
      | (db2, tree2, some e) => (db2, tree2, .error e)
      | (db2, tree2, none) =>
          match apply_new_nullifiers db2 newNullifiers with
          | (db3, some e) => (db3, tree2, .error e)
          | (db3, none) => (db3, tree2, .ok (newLeaves.length, newNullifiers.length))

/-- `submit_root_if_changed` (events.rs): skip on an empty store; read the
worker root; skip if it equals the latest stored root; otherwise submit it
and record the root row.  Failures are reported to the caller. -/
def submit_root_if_changed (workerRoot : Except AspError String)
    (submitTx : Except AspError String) (db : Database) : Database × Option AspError :=
  if db.get_leaf_count = 0 then (db, none)
  else
    match workerRoot with
    | .error e => (db, some e)
    | .ok current_root =>
        if db.get_latest_root = some current_root then (db, none)
        else
          match submitTx with
          | .error e => (db, some e)
          | .ok tx =>
              match db.insert_root current_root db.get_leaf_count (some tx) with
              | .error e => (db, some e)
              | .ok db2 => (db2, none)

/-- Oracle for the external calls of one sync cycle. -/
structure SyncIO where
  blockNumber : Except AspError Nat
  pages : List (Except AspError EventsPage)
  leafResults : List (Except AspError String)
  workerRoot : Except AspError String
  submitTx : Except AspError String
  deriving DecidableEq, Repr

/-- `sync_once` (events.rs): read the chain head; parse the stored cursor
(`unwrap_or(0)` on absence or a non-numeric value); skip if no new block;
poll and apply events; if any commitment was applied, try
`submit_root_if_changed` and ONLY LOG its failure (`if let Err`); finally
advance the `last_block` cursor.  An error result carries the state mutated
so far. -/
def sync_once (io : SyncIO) (db : Database) (tree : List String) :
    Database × List String × Option AspError :=
  match io.blockNumber with
  | .error e => (db, tree, some e)
  | .ok latest_block =>
      let last_synced := ((db.get_sync_state "last_block").bind parseDecNat?).getD 0
      if latest_block ≤ last_synced then (db, tree, none)
      else
        match poll_events io.pages io.leafResults db tree with
        | (db2, tree2, .error e) => (db2, tree2, some e)
        | (db2, tree2, .ok counts) =>
            let db3 :=
              if 0 < counts.1 then (submit_root_if_changed io.workerRoot io.submitTx db2).1
              else db2
            match db3.set_sync_state "last_block" (toString latest_block) with
            | .error e => (db3, tree2, some e)
            | .ok db4 => (db4, tree2, none)

-- Neither leaf nor nullifier application touches the sync_state table.

theorem insert_commitment_sync_state (db : Database) (i : Nat) (c : String) (tx : Option String)
    (db2 : Database) (h : db.insert_commitment i c tx = .ok db2) :
    db2.sync_state = db.sync_state := by
  simp only [Database.insert_commitment, Except.ok.injEq] at h
  split at h <;> simp [← h]

theorem insert_nullifier_sync_state (db : Database) (n c : String) (tx : Option String)
    (db2 : Database) (h : db.insert_nullifier n c tx = .ok db2) :
    db2.sync_state = db.sync_state := by
  simp only [Database.insert_nullifier, Except.ok.injEq] at h
  split at h <;> simp [← h]

theorem insert_root_sync_state (db : Database) (r : String) (n : Nat) (tx : Option String)
    (db2 : Database) (h : db.insert_root r n tx = .ok db2) :
    db2.sync_state = db.sync_state := by
  simp only [Database.insert_root, Except.ok.injEq] at h
  simp [← h]

theorem apply_new_leaves_sync_state (leaves : List (Nat × String)) :
    ∀ leafResults db tree,
      (apply_new_leaves leafResults db tree leaves).1.sync_state = db.sync_state := by
  induction leaves with
  | nil => intro leafResults db tree; rfl
  | cons leaf rest ih =>
      intro leafResults db tree
      obtain ⟨i, c⟩ := leaf
      simp only [apply_new_leaves]
      cases hins : db.insert_commitment i c none with
      | error e => simp
      | ok db2 =>
          have hs := insert_commitment_sync_state db i c none db2 hins
          cases leafResults with
          | nil => simpa [ih] using hs
          | cons r restResults =>
              cases r with
              | error e => simpa using hs
              | ok root => simpa [ih] using hs

theorem apply_new_nullifiers_sync_state (nulls : List String) :
    ∀ db, (apply_new_nullifiers db nulls).1.sync_state = db.sync_state := by
  induction nulls with
  | nil => intro db; rfl
  | cons n rest ih =>
      intro db
      simp only [apply_new_nullifiers]
      cases hins : db.insert_nullifier n "synced" none with
      | error e => simp
      | ok db2 =>
          have hs := insert_nullifier_sync_state db n "synced" none db2 hins
          simpa [ih] using hs

theorem poll_events_sync_state (pages : List (Except AspError EventsPage))
    (leafResults : List (Except AspError String)) (db : Database) (tree : List String) :
    (poll_events pages leafResults db tree).1.sync_state = db.sync_state := by
  unfold poll_events
  cases hc : collect_events db pages ([], []) with
  | error e => rfl
  | ok acc =>
      obtain ⟨newLeaves, newNullifiers⟩ := acc
      dsimp only []
      have h2 := apply_new_leaves_sync_state newLeaves leafResults db tree
      rcases hl : apply_new_leaves leafResults db tree newLeaves with ⟨db2, tree2, err2⟩
      rw [hl] at h2
      cases err2 with
      | some e => dsimp only [] at h2 ⊢; exact h2
      | none =>
          dsimp only [] at h2 ⊢
          have h3 := apply_new_nullifiers_sync_state newNullifiers db2
          rcases hn : apply_new_nullifiers db2 newNullifiers with ⟨db3, err3⟩
          rw [hn] at h3
          cases err3 with
          | some e => dsimp only [] at h3 ⊢; rw [h3]; exact h2
          | none => dsimp only [] at h3 ⊢; rw [h3]; exact h2

theorem submit_root_if_changed_sync_state (workerRoot submitTx : Except AspError String)
    (db : Database) :
    (submit_root_if_changed workerRoot submitTx db).1.sync_state = db.sync_state := by
  unfold submit_root_if_changed Database.insert_root
  split
  · rfl
  · cases workerRoot with
    | error e => rfl
    | ok current_root =>
        dsimp only []
        split
        · rfl
        · cases submitTx with
          | error e => rfl
          | ok tx => rfl

/-- get_sync_state only looks at the sync_state table. -/
theorem get_sync_state_congr (db db2 : Database) (k : String)
    (h : db2.sync_state = db.sync_state) :
    db2.get_sync_state k = db.get_sync_state k := by
  simp [Database.get_sync_state, h]

theorem find_map_upsert (l : List (String × String)) (k v : String)
    (h : l.any (fun kv => kv.1 == k) = true) :
    (l.map (fun kv => if kv.1 == k then (k, v) else kv)).find? (fun kv => kv.1 == k)
      = some (k, v) := by
  induction l with
  | nil => simp at h
  | cons kv rest ih =>
      by_cases hk : kv.1 = k
      · simp [List.find?, hk]
      · have hk2 : (kv.1 == k) = false := by simpa using hk
        have hrest : rest.any (fun kv => kv.1 == k) = true := by
          simpa [hk2] using h
        simp only [List.map_cons, hk2, if_neg (by simpa using hk)]
        rw [List.find?_cons_of_neg _ (by simpa using hk)]
        exact ih hrest

theorem find_append_absent (l : List (String × String)) (k v : String)
    (h : l.any (fun kv => kv.1 == k) = false) :
    (l ++ [(k, v)]).find? (fun kv => kv.1 == k) = some (k, v) := by
  induction l with
  | nil => simp [List.find?]
  | cons kv rest ih =>
      have hk : (kv.1 == k) = false := by
        by_contra hc
        have : (kv.1 == k) = true := by
          cases hb : (kv.1 == k) with
          | true => rfl
          | false => exact absurd hb hc
        simp [List.any_cons, this] at h
      have hrest : rest.any (fun kv => kv.1 == k) = false := by
        simpa [List.any_cons, hk] using h
      rw [List.cons_append, List.find?_cons_of_neg _ (by simp [hk])]
      exact ih hrest

/-- After `set_sync_state k v`, the stored value for `k` is `v` (upsert). -/
theorem set_sync_state_get (db : Database) (k v : String) (db2 : Database)
    (h : db.set_sync_state k v = .ok db2) :
    db2.get_sync_state k = some v := by
  simp only [Database.set_sync_state, Except.ok.injEq] at h
  split at h
  · next hany =>
      rw [← h]
      simp only [Database.get_sync_state]
      rw [find_map_upsert db.sync_state k v hany]
      rfl
  · next hany =>
      rw [← h]
      simp only [Database.get_sync_state]
      rw [find_append_absent db.sync_state k v (by rw [Bool.not_eq_true] at hany; exact hany)]
      rfl

/-- The cursor-holding store of the C3 scenario: cursor at block 5. -/
def c3db : Database := ⟨[], [], [], [("last_block", "5")]⟩

/-- The C3 cycle: chain head 6, one `CommitmentAdded` event for an absent
leaf, a healthy worker, but a FAILING root submission. -/
def c3io : SyncIO where
  blockNumber := .ok 6
  pages := [.ok ⟨[⟨[commitment_added_selector], [7, 0, 0, 0, 0]⟩], false⟩]
  leafResults := [.ok "r1"]
  workerRoot := .ok "r1"
  submitTx := .error (.RpcError "submit down")

/-- C3, counterexample: the root-submission sub-step of this cycle fails,
yet the cursor still advances from 5 to the polled block 6 — `sync_once`
wraps `submit_root_if_changed` in `if let Err` and only logs the failure,
contrary to the claim that any sub-step failure leaves the cursor
unchanged. -/
theorem C3_cursor_advances_despite_submit_failure :
    c3io.submitTx = .error (.RpcError "submit down") ∧
    c3db.get_sync_state "last_block" = some "5" ∧
    (sync_once c3io c3db []).2.2 = none ∧
    (sync_once c3io c3db []).1.get_sync_state "last_block" = some "6" := by
  refine ⟨rfl, rfl, ?_, ?_⟩ <;> rfl

/-- C3 (amended): the cursor is left unchanged whenever the cycle reports a
failure — reading the block number, paging events, or applying leaves and
nullifiers; and when no new block exists the cycle is a no-op.  But a failure
of the root submission is only logged: whenever the poll succeeds on a new
block, the cursor advances to the polled block number regardless of the
`submit_root_if_changed` outcome. -/
theorem C3_sync_cursor (io : SyncIO) (db : Database) (tree : List String) :
    (∀ e, (sync_once io db tree).2.2 = some e →
      (sync_once io db tree).1.get_sync_state "last_block"
        = db.get_sync_state "last_block") ∧
    (∀ latest, io.blockNumber = .ok latest →
      latest ≤ ((db.get_sync_state "last_block").bind parseDecNat?).getD 0 →
      sync_once io db tree = (db, tree, none)) ∧
    (∀ latest, io.blockNumber = .ok latest →
      ((db.get_sync_state "last_block").bind parseDecNat?).getD 0 < latest →
      (sync_once io db tree).2.2 = none →
      (sync_once io db tree).1.get_sync_state "last_block" = some (toString latest)) := by
  refine ⟨?_, ?_, ?_⟩
  · intro e he
    unfold sync_once at he ⊢
    cases hb : io.blockNumber with
    | error e2 => rfl
    | ok latest =>
        rw [hb] at he
        dsimp only [] at he ⊢
        by_cases hle : latest ≤ ((db.get_sync_state "last_block").bind parseDecNat?).getD 0
        · rw [if_pos hle]
        · rw [if_neg hle] at he ⊢
          have hps := poll_events_sync_state io.pages io.leafResults db tree
          rcases hp : poll_events io.pages io.leafResults db tree with ⟨db2, tree2, res2⟩
          rw [hp] at he hps
          cases res2 with
          | error e3 =>
              dsimp only [] at he ⊢
              exact get_sync_state_congr db db2 "last_block" hps
          | ok counts =>
              dsimp only [] at he ⊢
              simp only [Database.set_sync_state] at he
              exact absurd he (by simp)
  · intro latest hb hle
    unfold sync_once
    rw [hb]
    dsimp only []
    rw [if_pos hle]
  · intro latest hb hlt hnone
    unfold sync_once at hnone ⊢
    rw [hb] at hnone ⊢
    dsimp only [] at hnone ⊢
    rw [if_neg (Nat.not_le.mpr hlt)] at hnone ⊢
    rcases hp : poll_events io.pages io.leafResults db tree with ⟨db2, tree2, res2⟩
    rw [hp] at hnone
    cases res2 with
    | error e3 => dsimp only [] at hnone; exact absurd hnone (by simp)
    | ok counts =>
        dsimp only [] at hnone ⊢
        set db3 := if 0 < counts.1
          then (submit_root_if_changed io.workerRoot io.submitTx db2).1 else db2 with hdb3
        cases hset : db3.set_sync_state "last_block" (toString latest) with
        | error e4 => simp [Database.set_sync_state] at hset
        | ok db4 =>
            dsimp only []
            exact set_sync_state_get db3 "last_block" (toString latest) db4 hset

/-- C3 witness: the amended theorem applied at a cycle whose block-number
read fails — the cursor is untouched. -/
theorem C3_sync_cursor_witness :
    (sync_once ⟨.error (.RpcError "down"), [], [], .ok "", .ok ""⟩ c3db []).1.get_sync_state
        "last_block" = c3db.get_sync_state "last_block" :=
  (C3_sync_cursor ⟨.error (.RpcError "down"), [], [], .ok "", .ok ""⟩ c3db []).1
    (.RpcError "down") rfl

/-! Request validation, `api/validation.rs`. -/

/-- `MAX_TICK` (validation.rs, also `TICK_OFFSET` in mint.rs/burn.rs). -/
def MAX_TICK : Int := 887272

/-- `validate_secret` (validation.rs): presence only. -/
def validate_secret (value field_name : String) : Except AspError Unit :=
  if value.isEmpty then .error (.InvalidInput (field_name ++ " is required"))
  else .ok ()

/-- `validate_decimal` (validation.rs): non-empty and decimal. -/
def validate_decimal (value field_name : String) : Except AspError Unit :=
  if value.isEmpty then .error (.InvalidInput (field_name ++ " is required"))
  else
    match parseDecNat? value with
    | some _ => .ok ()
    | none => .error (.InvalidInput (field_name ++ " must be a valid decimal number"))

/-- `validate_address` (validation.rs): non-empty, `0x`/`0X`-prefixed, valid
hex, below the felt252 bound `2^251 + 17 * 2^192`. -/
def validate_address (value field_name : String) : Except AspError Unit :=
  if value.isEmpty then .error (.InvalidInput (field_name ++ " is required"))
  else
    match value.data with
    | '0' :: 'x' :: rest =>
        match parseHexNat? (String.mk rest) with
        | some big =>
            if big ≥ 2 ^ 251 + 17 * 2 ^ 192 then
              .error (.InvalidInput (field_name ++ " exceeds felt252 range"))
            else .ok ()
        | none => .error (.InvalidInput (field_name ++ " is not valid hex"))
    | '0' :: 'X' :: rest =>
        match parseHexNat? (String.mk rest) with
        | some big =>
            if big ≥ 2 ^ 251 + 17 * 2 ^ 192 then
              .error (.InvalidInput (field_name ++ " exceeds felt252 range"))
            else .ok ()
        | none => .error (.InvalidInput (field_name ++ " is not valid hex"))
    | _ => .error (.InvalidInput (field_name ++ " must be hex-prefixed (0x...)"))

/-- `validate_tick` (validation.rs). -/
def validate_tick (tick : Int) (field_name : String) : Except AspError Unit :=
  if tick < -MAX_TICK ∨ tick > MAX_TICK then
    .error (.InvalidInput (field_name ++ " must be between -887272 and 887272"))
  else .ok ()

/-- `validate_tick_range` (validation.rs). -/
def validate_tick_range (tick_lower tick_upper : Int) : Except AspError Unit := do
  validate_tick tick_lower "tick_lower"
  validate_tick tick_upper "tick_upper"
  if tick_lower ≥ tick_upper then
    Except.error (.InvalidInput "tick_lower must be less than tick_upper")
  else
    Except.ok ()

/-! The mint pipeline, `api/handlers/mint.rs`, with the worker result types
of `prover/worker.rs` and the request types of `api/types.rs`. -/

/-- `PoolKeyParams` of `relayer/starknet.rs`. -/
structure PoolKeyParams where
  token_0 : String
  token_1 : String
  fee : Nat
  tick_spacing : Nat
  deriving DecidableEq, Repr

/-- `NoteInput` of `api/types.rs`. -/
structure NoteInput where
  secret : String
  nullifier : String
  balance_low : String
  balance_high : String
  token : String
  leaf_index : Nat
  deriving DecidableEq, Repr

/-- `NoteSecrets` of `api/types.rs`. -/
structure NoteSecrets where
  secret : String
  nullifier : String
  deriving DecidableEq, Repr

/-- `PositionInput` of `api/types.rs` (`i32` ticks as `Int`). -/
structure PositionInput where
  secret : String
  nullifier : String
  liquidity : String
  tick_lower : Int
  tick_upper : Int
  deriving DecidableEq, Repr

/-- `MintAmounts` of `api/types.rs`. -/
structure MintAmounts where
  amount0_low : String
  amount0_high : String
  amount1_low : String
  amount1_high : String
  deriving DecidableEq, Repr

/-- `MintRequest` of `api/types.rs` (`u128` liquidity as `Nat`). -/
structure MintRequest where
  pool_key : PoolKeyParams
  input_note_0 : NoteInput
  input_note_1 : NoteInput
  position : PositionInput
  amounts : MintAmounts
  change_note_0 : NoteSecrets
  change_note_1 : NoteSecrets
  liquidity : Nat
  deriving DecidableEq, Repr

/-- `MintResponse` of `api/types.rs`. -/
structure MintResponse where
  status : String
  tx_hash : String
  position_commitment : String
  change_commitment_0 : String
  change_commitment_1 : String
  deriving DecidableEq, Repr

/-- `CommitmentResult` of `prover/worker.rs`. -/
structure CommitmentResult where
  commitment : String
  nullifier_hash : String
  deriving DecidableEq, Repr

/-- `MerkleProof` of `prover/worker.rs`. -/
structure MerkleProof where
  path_elements : List String
  path_indices : List Nat
  root : String
  deriving DecidableEq, Repr

/-- `ProofResult` of `prover/worker.rs`. -/
structure ProofResult where
  calldata : List String
  public_signals : List String
  deriving DecidableEq, Repr

/-- The per-note validation loop of `validate_mint_request` (mint.rs). -/
def validate_mint_note (prefixStr : String) (note : NoteInput) : Except AspError Unit := do
  validate_secret note.secret (prefixStr ++ ".secret")
  validate_secret note.nullifier (prefixStr ++ ".nullifier")
  validate_decimal note.balance_low (prefixStr ++ ".balance_low")
  validate_decimal note.balance_high (prefixStr ++ ".balance_high")
  validate_address note.token (prefixStr ++ ".token")

/-- `validate_mint_request` (mint.rs). -/
def validate_mint_request (req : MintRequest) : Except AspError Unit := do
  validate_mint_note "input_note_0" req.input_note_0
  validate_mint_note "input_note_1" req.input_note_1
  validate_secret req.position.secret "position.secret"
  validate_secret req.position.nullifier "position.nullifier"
  validate_decimal req.position.liquidity "position.liquidity"
  validate_tick_range req.position.tick_lower req.position.tick_upper
  validate_decimal req.amounts.amount0_low "amounts.amount0_low"
  validate_decimal req.amounts.amount0_high "amounts.amount0_high"
  validate_decimal req.amounts.amount1_low "amounts.amount1_low"
  validate_decimal req.amounts.amount1_high "amounts.amount1_high"
  validate_secret req.change_note_0.secret "change_note_0.secret"
  validate_secret req.change_note_0.nullifier "change_note_0.nullifier"
  validate_secret req.change_note_1.secret "change_note_1.secret"
  validate_secret req.change_note_1.nullifier "change_note_1.nullifier"
  validate_address req.pool_key.token_0 "pool_key.token_0"
  validate_address req.pool_key.token_1 "pool_key.token_1"
  if req.liquidity == 0 then
    Except.error (.InvalidInput "liquidity must be > 0")
  else
    Except.ok ()

/-- Step 2 of the mint pipeline, one `(note, result)` iteration: the stored
commitment at the note's leaf index must exist and equal the computed one,
and the computed nullifier hash must not be spent. -/
def verify_input_note (db : Database) (note : NoteInput) (result : CommitmentResult) :
    Except AspError Unit :=
  match db.get_commitment note.leaf_index with
  | some row =>
      if row.commitment = result.commitment then
        if db.is_nullifier_spent result.nullifier_hash then
          .error (.NullifierAlreadySpent result.nullifier_hash)
        else .ok ()
      else .error (.InvalidInput ("Commitment mismatch at leaf " ++ toString note.leaf_index))
  | none => .error (.CommitmentNotFound note.leaf_index)

/-- The guard `!c.is_empty() && c != "0"` of the leaf-append blocks
(mint.rs step 10, burn.rs step 9). -/
def leaf_nonzero (c : String) : Bool :=
  !c.isEmpty && c != "0"

/-- One leaf-append block of the post-proof contract: read
`leaf_index = get_leaf_count()`, `insert_commitment`, then the worker
`insert_leaf` call (outcome drawn from the oracle list; on success the
returned root replaces `last_root`; an exhausted oracle stands for a success
that repeats the previous root).  The state mutated before a failure is
kept. -/
def insert_leaf_pair (tx c : String) (db : Database) (tree : List String)
    (oracle : List (Except AspError String)) (lastRoot : String) :
    Database × List String × List (Except AspError String) × String × Option AspError :=
  match db.insert_commitment db.get_leaf_count c (some tx) with
  | .error e => (db, tree, oracle, lastRoot, some e)
  | .ok db2 =>
      match oracle with
      | .error e :: rest => (db2, tree, rest, lastRoot, some e)
      | .ok root :: rest => (db2, tree ++ [c], rest, root, none)
      | [] => (db2, tree ++ [c], [], lastRoot, none)

/-- Oracle for the external calls of one mint request, in call order:
`compute_commitment` for both input notes, `get_proof` for both,
`compute_position_commitment`, `generate_proof`, the relayer presence and its
`shielded_mint` outcome, the worker `insert_leaf` outcomes, and the
`submit_merkle_root` outcome. -/
structure MintEnv where
  input0 : Except AspError CommitmentResult
  input1 : Except AspError CommitmentResult
  proof0 : Except AspError MerkleProof
  proof1 : Except AspError MerkleProof
  position : Except AspError CommitmentResult
  proofResult : Except AspError ProofResult
  hasRelayer : Bool
  mintTx : Except AspError String
  insertLeafResults : List (Except AspError String)
  rootTx : Except AspError String
  deriving DecidableEq, Repr

/-- The `shielded_mint` handler (mint.rs), step for step: validation; the two
input commitments; the step-2 verification of both notes; both Merkle proofs;
the position commitment (computed over the `+887272`-offset unsigned ticks,
which — like the circuit-input JSON — only parametrises the worker calls the
oracle answers); the proof; `shielded_mint` on chain (`Internal` error when no
relayer is configured); both nullifiers recorded with kind `"mint"`; the
guarded appends of `publicSignals[0]`, `publicSignals[1]` and the
unconditional append of the position commitment; the root row; and the
on-chain root submission.  Failures keep the state mutated so far. -/
def shielded_mint (env : MintEnv) (st : HState) (req : MintRequest) :
    HState × Except AspError MintResponse :=
  match validate_mint_request req with
  | .error e => (st, .error e)
  | .ok _ =>
  match env.input0 with
  | .error e => (st, .error e)
  | .ok input0 =>
  match env.input1 with
  | .error e => (st, .error e)
  | .ok input1 =>
  match verify_input_note st.db req.input_note_0 input0 with
  | .error e => (st, .error e)
  | .ok _ =>
  match verify_input_note st.db req.input_note_1 input1 with
  | .error e => (st, .error e)
  | .ok _ =>
  match env.proof0 with
  | .error e => (st, .error e)
  | .ok _proof0 =>
  match env.proof1 with
  | .error e => (st, .error e)
  | .ok _proof1 =>
  match env.position with
  | .error e => (st, .error e)
  | .ok position =>
  match env.proofResult with
  | .error e => (st, .error e)
  | .ok proof_result =>
  match (if env.hasRelayer then env.mintTx else .error (.Internal "No relayer configured")) with
  | .error e => (st, .error e)
  | .ok tx_hash =>
  match st.db.insert_nullifier input0.nullifier_hash "mint" (some tx_hash) with
  | .error e => (st, .error e)
  | .ok dbA =>
  match dbA.insert_nullifier input1.nullifier_hash "mint" (some tx_hash) with
  | .error e => (⟨dbA, st.tree⟩, .error e)
  | .ok dbB =>
  match (if leaf_nonzero ((proof_result.public_signals.get? 0).getD "") then
      insert_leaf_pair tx_hash ((proof_result.public_signals.get? 0).getD "") dbB st.tree
        env.insertLeafResults ""
    else (dbB, st.tree, env.insertLeafResults, "", none)) with
  | (dbC, treeC, _, _, some e) => (⟨dbC, treeC⟩, .error e)
  | (dbC, treeC, oracleC, rootC, none) =>
  match (if leaf_nonzero ((proof_result.public_signals.get? 1).getD "") then
      insert_leaf_pair tx_hash ((proof_result.public_signals.get? 1).getD "") dbC treeC
        oracleC rootC
    else (dbC, treeC, oracleC, rootC, none)) with
  | (dbD, treeD, _, _, some e) => (⟨dbD, treeD⟩, .error e)
  | (dbD, treeD, oracleD, rootD, none) =>
  match insert_leaf_pair tx_hash position.commitment dbD treeD oracleD rootD with
  | (dbE, treeE, _, _, some e) => (⟨dbE, treeE⟩, .error e)
  | (dbE, treeE, _, rootE, none) =>
  match dbE.insert_root rootE dbE.get_leaf_count (some tx_hash) with
  | .error e => (⟨dbE, treeE⟩, .error e)
  | .ok dbF =>
  match (if env.hasRelayer then env.rootTx else .ok "") with
  | .error e => (⟨dbF, treeE⟩, .error e)
  | .ok _root_tx =>
      (⟨dbF, treeE⟩, .ok ⟨"confirmed", tx_hash, position.commitment,
        (proof_result.public_signals.get? 0).getD "",
        (proof_result.public_signals.get? 1).getD ""⟩)

/-- Density of leaf indices (spec invariant 1): every stored row's
`leaf_index` lies below the row count.  It holds for every store built by
appends at `get_leaf_count()` and makes such appends land. -/
def Database.Dense (db : Database) : Prop :=
  ∀ r ∈ db.commitments, r.leaf_index < db.commitments.length

theorem get_commitment_at_count_of_dense (db : Database) (hd : db.Dense) :
    db.get_commitment db.get_leaf_count = none := by
  simp only [Database.get_commitment, Database.get_leaf_count]
  rw [List.find?_eq_none]
  intro r hr
  have := hd r hr
  simp only [beq_iff_eq]
  omega

theorem insert_at_count (db : Database) (c : String) (tx : Option String) (hd : db.Dense) :
    db.insert_commitment db.get_leaf_count c tx
      = .ok ⟨db.commitments ++ [⟨db.commitments.length, c, tx⟩],
          db.merkle_roots, db.nullifiers, db.sync_state⟩ := by
  unfold Database.insert_commitment
  rw [get_commitment_at_count_of_dense db hd]
  rfl

theorem dense_append (db : Database) (c : String) (tx : Option String) (hd : db.Dense) :
    Database.Dense ⟨db.commitments ++ [⟨db.commitments.length, c, tx⟩],
      db.merkle_roots, db.nullifiers, db.sync_state⟩ := by
  intro r hr
  simp only [List.mem_append, List.mem_singleton] at hr
  simp only [List.length_append, List.length_singleton]
  cases hr with
  | inl hmem => have := hd r hmem; omega
  | inr heq => rw [heq]; simp

theorem insert_leaf_pair_ok (tx c r : String) (db : Database) (tree : List String)
    (rest : List (Except AspError String)) (lastRoot : String) (hd : db.Dense) :
    insert_leaf_pair tx c db tree (Except.ok r :: rest) lastRoot
      = (⟨db.commitments ++ [⟨db.commitments.length, c, some tx⟩],
            db.merkle_roots, db.nullifiers, db.sync_state⟩,
          tree ++ [c], rest, r, none) := by
  unfold insert_leaf_pair
  rw [insert_at_count db c (some tx) hd]

theorem insert_nullifier_fresh (db : Database) (h c : String) (tx : Option String)
    (hf : db.is_nullifier_spent h = false) :
    db.insert_nullifier h c tx
      = .ok ⟨db.commitments, db.merkle_roots, db.nullifiers ++ [⟨h, c, tx⟩], db.sync_state⟩ := by
  unfold Database.insert_nullifier
  rw [Database.is_nullifier_spent] at hf
  rw [hf]
  rfl

theorem insert_nullifier_present (db : Database) (h c : String) (tx : Option String)
    (hs : db.is_nullifier_spent h = true) :
    db.insert_nullifier h c tx = .ok db := by
  unfold Database.insert_nullifier
  rw [Database.is_nullifier_spent] at hs
  rw [hs]
  rfl

theorem get_nullifier_none_of_not_spent (db : Database) (x : String)
    (h : db.is_nullifier_spent x = false) : db.get_nullifier x = none := by
  simp only [Database.get_nullifier]
  rw [List.find?_eq_none]
  intro r hr hc
  have hs : db.is_nullifier_spent x = true := by
    simp only [Database.is_nullifier_spent, List.any_eq_true]
    exact ⟨r, hr, hc⟩
  rw [h] at hs
  cases hs

theorem verify_input_note_not_spent (db : Database) (note : NoteInput)
    (result : CommitmentResult) (h : verify_input_note db note result = .ok ()) :
    db.is_nullifier_spent result.nullifier_hash = false := by
  unfold verify_input_note at h
  cases hg : db.get_commitment note.leaf_index with
  | none => rw [hg] at h; exact absurd h (by simp)
  | some row =>
      rw [hg] at h
      dsimp only [] at h
      by_cases hc : row.commitment = result.commitment
      · rw [if_pos hc] at h
        cases hs : db.is_nullifier_spent result.nullifier_hash with
        | false => rfl
        | true => rw [hs] at h; exact absurd h (by simp)
      · rw [if_neg hc] at h; exact absurd h (by simp)

theorem dense_congr (db db2 : Database) (h : db2.commitments = db.commitments)
    (hd : db.Dense) : db2.Dense := by
  intro r hr
  rw [h] at hr ⊢
  exact hd r hr

/-- The leaves the mint pipeline appends, in order: `publicSignals[0]` and
`publicSignals[1]` when non-empty and not `"0"`, then the position
commitment unconditionally. -/
def mint_leaves (pr : ProofResult) (posr : CommitmentResult) : List String :=
  (if leaf_nonzero ((pr.public_signals.get? 0).getD "")
    then [(pr.public_signals.get? 0).getD ""] else [])
  ++ (if leaf_nonzero ((pr.public_signals.get? 1).getD "")
    then [(pr.public_signals.get? 1).getD ""] else [])
  ++ [posr.commitment]

/-- The two step-9 `insert_nullifier` calls of the mint pipeline: on a store
where neither hash is spent, both are recorded with kind `"mint"` and the
transaction hash, whether the two hashes coincide or not; the other tables
are untouched. -/
theorem mint_nullifier_inserts (db : Database) (h0 h1 tx : String)
    (hf0 : db.is_nullifier_spent h0 = false) (hf1 : db.is_nullifier_spent h1 = false) :
    ∃ dbA dbB,
      db.insert_nullifier h0 "mint" (some tx) = .ok dbA ∧
      dbA.insert_nullifier h1 "mint" (some tx) = .ok dbB ∧
      dbB.commitments = db.commitments ∧
      dbB.merkle_roots = db.merkle_roots ∧
      dbB.sync_state = db.sync_state ∧
      dbB.get_nullifier h0 = some ⟨h0, "mint", some tx⟩ ∧
      dbB.get_nullifier h1 = some ⟨h1, "mint", some tx⟩ := by
  have hn0 : db.nullifiers.find? (fun r => r.nullifier_hash == h0) = none :=
    get_nullifier_none_of_not_spent db h0 hf0
  have hn1 : db.nullifiers.find? (fun r => r.nullifier_hash == h1) = none :=
    get_nullifier_none_of_not_spent db h1 hf1
  have hA := insert_nullifier_fresh db h0 "mint" (some tx) hf0
  by_cases hh : h1 = h0
  · subst hh
    refine ⟨_, ⟨db.commitments, db.merkle_roots,
        db.nullifiers ++ [⟨h1, "mint", some tx⟩], db.sync_state⟩, hA, ?_, rfl, rfl, rfl, ?_, ?_⟩
    · apply insert_nullifier_present
      simp [Database.is_nullifier_spent]
    · simp [Database.get_nullifier, List.find?_append, hn0]
    · simp [Database.get_nullifier, List.find?_append, hn0]
  · have hfA : Database.is_nullifier_spent
        ⟨db.commitments, db.merkle_roots, db.nullifiers ++ [⟨h0, "mint", some tx⟩],
          db.sync_state⟩ h1 = false := by
      simp only [Database.is_nullifier_spent, List.any_append]
      rw [Database.is_nullifier_spent] at hf1
      simp [hf1, Ne.symm hh]
    have hB := insert_nullifier_fresh _ h1 "mint" (some tx) hfA
    refine ⟨_, _, hA, hB, rfl, rfl, rfl, ?_, ?_⟩
    · simp [Database.get_nullifier, List.find?_append, hn0]
    · simp [Database.get_nullifier, List.find?_append, hn1, Ne.symm hh]

/-- C6: when a mint request passes validation and verification and every
external call succeeds (worker computations, the `shielded_mint` submission
answering `tx`, the worker `insert_leaf` calls answering `roots`, the root
submission), the pipeline records both input nullifier hashes with kind
`"mint"` and the transaction hash, appends exactly `mint_leaves` — the two
non-zero change commitments in public-signal order, then the position
commitment — to both the store (at the successive `get_leaf_count()` indices)
and the tree, records the last returned root with the final leaf count, and
answers the confirmed response. -/
theorem C6_mint_post_proof_contract (env : MintEnv) (st : HState) (req : MintRequest)
    (input0 input1 posr : CommitmentResult) (mp0 mp1 : MerkleProof) (pr : ProofResult)
    (tx rtx : String) (roots : List String)
    (hval : validate_mint_request req = .ok ())
    (h0 : env.input0 = .ok input0) (h1 : env.input1 = .ok input1)
    (hv0 : verify_input_note st.db req.input_note_0 input0 = .ok ())
    (hv1 : verify_input_note st.db req.input_note_1 input1 = .ok ())
    (hp0 : env.proof0 = .ok mp0) (hp1 : env.proof1 = .ok mp1)
    (hpos : env.position = .ok posr) (hpr : env.proofResult = .ok pr)
    (hrel : env.hasRelayer = true) (htx : env.mintTx = .ok tx)
    (horacle : env.insertLeafResults = roots.map Except.ok)
    (hlen : roots.length = (mint_leaves pr posr).length)
    (hrt : env.rootTx = .ok rtx)
    (hdense : st.db.Dense) :
    (shielded_mint env st req).2
        = .ok ⟨"confirmed", tx, posr.commitment,
            (pr.public_signals.get? 0).getD "", (pr.public_signals.get? 1).getD ""⟩ ∧
    (shielded_mint env st req).1.tree = st.tree ++ mint_leaves pr posr ∧
    (shielded_mint env st req).1.db.commitments
        = st.db.commitments
          ++ ((mint_leaves pr posr).enumFrom st.db.commitments.length).map
            (fun p => ⟨p.1, p.2, some tx⟩) ∧
    (shielded_mint env st req).1.db.get_nullifier input0.nullifier_hash
        = some ⟨input0.nullifier_hash, "mint", some tx⟩ ∧
    (shielded_mint env st req).1.db.get_nullifier input1.nullifier_hash
        = some ⟨input1.nullifier_hash, "mint", some tx⟩ ∧
    (shielded_mint env st req).1.db.merkle_roots
        = st.db.merkle_roots
          ++ [⟨roots.getLastD "",
              st.db.commitments.length + (mint_leaves pr posr).length, some tx⟩] := by
  obtain ⟨dbA, dbB, hA, hB, hBc, hBm, hBs, hg0n, hg1n⟩ :=
    mint_nullifier_inserts st.db input0.nullifier_hash input1.nullifier_hash tx
      (verify_input_note_not_spent _ _ _ hv0) (verify_input_note_not_spent _ _ _ hv1)
  have hd0 : dbB.Dense := dense_congr st.db dbB hBc hdense
  have hmtx : (if env.hasRelayer then env.mintTx
      else .error (.Internal "No relayer configured")) = .ok tx := by
    rw [hrel]; simpa using htx
  have hrtx2 : (if env.hasRelayer then env.rootTx else .ok "") = .ok rtx := by
    rw [hrel]; simpa using hrt
  simp only [shielded_mint, hval, h0, h1, hv0, hv1, hp0, hp1, hpos, hpr, hmtx,
    hA, hB, horacle, hrtx2]
  by_cases g0 : leaf_nonzero ((pr.public_signals.get? 0).getD "") = true <;>
    by_cases g1 : leaf_nonzero ((pr.public_signals.get? 1).getD "") = true
  · have hml : mint_leaves pr posr
        = [(pr.public_signals.get? 0).getD "", (pr.public_signals.get? 1).getD "",
            posr.commitment] := by
      unfold mint_leaves
      rw [if_pos g0, if_pos g1]
      rfl
    obtain ⟨r0, r1, r2, rfl⟩ := List.length_eq_three.mp (hlen.trans (by rw [hml]; rfl))
    have hins1 := insert_leaf_pair_ok tx ((pr.public_signals.get? 0).getD "") r0 dbB st.tree
      [.ok r1, .ok r2] "" hd0
    have hd1 := dense_append dbB ((pr.public_signals.get? 0).getD "") (some tx) hd0
    have hins2 := insert_leaf_pair_ok tx ((pr.public_signals.get? 1).getD "") r1 _
      (st.tree ++ [(pr.public_signals.get? 0).getD ""]) [.ok r2] r0 hd1
    have hd2 := dense_append _ ((pr.public_signals.get? 1).getD "") (some tx) hd1
    have hins3 := insert_leaf_pair_ok tx posr.commitment r2 _
      (st.tree ++ [(pr.public_signals.get? 0).getD ""]
        ++ [(pr.public_signals.get? 1).getD ""]) [] r1 hd2
    rw [hml, List.map_cons, List.map_cons, List.map_cons, List.map_nil,
      if_pos g0, hins1]
    dsimp only []
    rw [if_pos g1, hins2]
    dsimp only []
    rw [hins3]
    dsimp only [Database.insert_root, Database.get_leaf_count]
    refine ⟨?_, ?_, ?_, ?_, ?_, ?_⟩
    · rfl
    · simp
    · simp [hBc, List.enumFrom, List.length_append]
    · simpa [Database.get_nullifier] using hg0n
    · simpa [Database.get_nullifier] using hg1n
    · simp [hBm, hBc, List.getLastD, List.length_append]
  · have hml : mint_leaves pr posr
        = [(pr.public_signals.get? 0).getD "", posr.commitment] := by
      unfold mint_leaves
      rw [if_pos g0, if_neg g1]
      rfl
    obtain ⟨r0, r1, rfl⟩ := List.length_eq_two.mp (hlen.trans (by rw [hml]; rfl))
    have hins1 := insert_leaf_pair_ok tx ((pr.public_signals.get? 0).getD "") r0 dbB st.tree
      [.ok r1] "" hd0
    have hd1 := dense_append dbB ((pr.public_signals.get? 0).getD "") (some tx) hd0
    have hins3 := insert_leaf_pair_ok tx posr.commitment r1 _
      (st.tree ++ [(pr.public_signals.get? 0).getD ""]) [] r0 hd1
    rw [hml, List.map_cons, List.map_cons, List.map_nil, if_pos g0, hins1]
    dsimp only []
    rw [if_neg g1]
    dsimp only []
    rw [hins3]
    dsimp only [Database.insert_root, Database.get_leaf_count]
    refine ⟨?_, ?_, ?_, ?_, ?_, ?_⟩
    · rfl
    · simp
    · simp [hBc, List.enumFrom, List.length_append]
    · simpa [Database.get_nullifier] using hg0n
    · simpa [Database.get_nullifier] using hg1n
    · simp [hBm, hBc, List.getLastD, List.length_append]
  · have hml : mint_leaves pr posr
        = [(pr.public_signals.get? 1).getD "", posr.commitment] := by
      unfold mint_leaves
      rw [if_neg g0, if_pos g1]
      rfl
    obtain ⟨r0, r1, rfl⟩ := List.length_eq_two.mp (hlen.trans (by rw [hml]; rfl))
    have hins2 := insert_leaf_pair_ok tx ((pr.public_signals.get? 1).getD "") r0 dbB st.tree
      [.ok r1] "" hd0
    have hd1 := dense_append dbB ((pr.public_signals.get? 1).getD "") (some tx) hd0
    have hins3 := insert_leaf_pair_ok tx posr.commitment r1 _
      (st.tree ++ [(pr.public_signals.get? 1).getD ""]) [] r0 hd1
    rw [hml, List.map_cons, List.map_cons, List.map_nil, if_neg g0]
    dsimp only []
    rw [if_pos g1, hins2]
    dsimp only []
    rw [hins3]
    dsimp only [Database.insert_root, Database.get_leaf_count]
    refine ⟨?_, ?_, ?_, ?_, ?_, ?_⟩
    · rfl
    · simp
    · simp [hBc, List.enumFrom, List.length_append]
    · simpa [Database.get_nullifier] using hg0n
    · simpa [Database.get_nullifier] using hg1n
    · simp [hBm, hBc, List.getLastD, List.length_append]
  · have hml : mint_leaves pr posr = [posr.commitment] := by
      unfold mint_leaves
      rw [if_neg g0, if_neg g1]
      rfl
    obtain ⟨r0, rfl⟩ := List.length_eq_one.mp (hlen.trans (by rw [hml]; rfl))
    have hins3 := insert_leaf_pair_ok tx posr.commitment r0 dbB st.tree [] "" hd0
    rw [hml, List.map_cons, List.map_nil, if_neg g0]
    dsimp only []
    rw [if_neg g1]
    dsimp only []
    rw [hins3]
    dsimp only [Database.insert_root, Database.get_leaf_count]
    refine ⟨?_, ?_, ?_, ?_, ?_, ?_⟩
    · rfl
    · simp
    · simp [hBc, List.enumFrom, List.length_append]
    · simpa [Database.get_nullifier] using hg0n
    · simpa [Database.get_nullifier] using hg1n
    · simp [hBm, hBc, List.getLastD, List.length_append]

/-- A concrete mint request that passes validation. -/
def c6req : MintRequest where
  pool_key := ⟨"0x1", "0x2", 3000, 60⟩
  input_note_0 := ⟨"s0", "n0", "100", "0", "0x1", 0⟩
  input_note_1 := ⟨"s1", "n1", "200", "0", "0x1", 1⟩
  position := ⟨"ps", "pn", "5", -60, 60⟩
  amounts := ⟨"1", "0", "2", "0"⟩
  change_note_0 := ⟨"cs0", "cn0"⟩
  change_note_1 := ⟨"cs1", "cn1"⟩
  liquidity := 5

/-- A store holding the two input commitments. -/
def c6st : HState :=
  ⟨⟨[⟨0, "c0", none⟩, ⟨1, "c1", none⟩], [], [], []⟩, ["c0", "c1"]⟩

/-- Oracle where every external call of the mint succeeds. -/
def c6env : MintEnv where
  input0 := .ok ⟨"c0", "h0"⟩
  input1 := .ok ⟨"c1", "h1"⟩
  proof0 := .ok ⟨[], [], "rt"⟩
  proof1 := .ok ⟨[], [], "rt"⟩
  position := .ok ⟨"pc", "ph"⟩
  proofResult := .ok ⟨[], ["7", "8"]⟩
  hasRelayer := true
  mintTx := .ok "0xmint"
  insertLeafResults := [.ok "r1", .ok "r2", .ok "r3"]
  rootTx := .ok "0xroot"

/-- C6 witness: the post-proof-contract theorem applied at the concrete
mint instance. -/
theorem C6_mint_post_proof_contract_witness :
    (shielded_mint c6env c6st c6req).2
      = .ok ⟨"confirmed", "0xmint", "pc", "7", "8"⟩ :=
  (C6_mint_post_proof_contract c6env c6st c6req ⟨"c0", "h0"⟩ ⟨"c1", "h1"⟩ ⟨"pc", "ph"⟩
    ⟨[], [], "rt"⟩ ⟨[], [], "rt"⟩ ⟨[], ["7", "8"]⟩ "0xmint" "0xroot" ["r1", "r2", "r3"]
    (by decide) rfl rfl (by decide) (by decide) rfl rfl rfl rfl rfl rfl rfl
    (by decide) rfl
    (show ∀ r ∈ c6st.db.commitments, r.leaf_index < c6st.db.commitments.length by decide)).1

/-! The burn pipeline, `api/handlers/burn.rs`. -/

/-- `PositionNoteInput` of `api/types.rs`. -/
structure PositionNoteInput where
  secret : String
  nullifier : String
  liquidity : String
  tick_lower : Int
  tick_upper : Int
  leaf_index : Nat
  deriving DecidableEq, Repr

/-- `OutputNoteInput` of `api/types.rs`. -/
structure OutputNoteInput where
  secret : String
  nullifier : String
  amount_low : String
  amount_high : String
  token : String
  deriving DecidableEq, Repr

/-- `BurnRequest` of `api/types.rs`. -/
structure BurnRequest where
  pool_key : PoolKeyParams
  position_note : PositionNoteInput
  output_note_0 : OutputNoteInput
  output_note_1 : OutputNoteInput
  liquidity : Nat
  deriving DecidableEq, Repr

/-- `BurnResponse` of `api/types.rs`. -/
structure BurnResponse where
  status : String
  tx_hash : String
  new_commitment_0 : String
  new_commitment_1 : String
  deriving DecidableEq, Repr

/-- The per-output-note validation loop of `validate_burn_request` (burn.rs). -/
def validate_burn_output (prefixStr : String) (note : OutputNoteInput) :
    Except AspError Unit := do
  validate_secret note.secret (prefixStr ++ ".secret")
  validate_secret note.nullifier (prefixStr ++ ".nullifier")
  validate_decimal note.amount_low (prefixStr ++ ".amount_low")
  validate_decimal note.amount_high (prefixStr ++ ".amount_high")
  validate_address note.token (prefixStr ++ ".token")

/-- `validate_burn_request` (burn.rs). -/
def validate_burn_request (req : BurnRequest) : Except AspError Unit := do
  validate_secret req.position_note.secret "position_note.secret"
  validate_secret req.position_note.nullifier "position_note.nullifier"
  validate_decimal req.position_note.liquidity "position_note.liquidity"
  validate_tick_range req.position_note.tick_lower req.position_note.tick_upper
  validate_burn_output "output_note_0" req.output_note_0
  validate_burn_output "output_note_1" req.output_note_1
  validate_address req.pool_key.token_0 "pool_key.token_0"
  validate_address req.pool_key.token_1 "pool_key.token_1"
  if req.liquidity == 0 then
    Except.error (.InvalidInput "liquidity must be > 0")
  else
    Except.ok ()

/-- Oracle for the external calls of one burn request, in call order:
`get_proof` for the position, `compute_commitment` for both output notes,
`compute_position_commitment`, `generate_proof`, the relayer presence and
its `shielded_burn` outcome, the worker `insert_leaf` outcomes, and the
`submit_merkle_root` outcome. -/
structure BurnEnv where
  proof : Except AspError MerkleProof
  output0 : Except AspError CommitmentResult
  output1 : Except AspError CommitmentResult
  position : Except AspError CommitmentResult
  proofResult : Except AspError ProofResult
  hasRelayer : Bool
  burnTx : Except AspError String
  insertLeafResults : List (Except AspError String)
  rootTx : Except AspError String
  deriving DecidableEq, Repr

/-- The `shielded_burn` handler (burn.rs), step for step: validation; the
position inclusion proof; the two output commitments; the position
commitment and nullifier hash (the offset ticks and the circuit-input JSON
only parametrise the oracle-answered worker calls); the proof;
`shielded_burn` on chain; the position nullifier recorded with kind
`"burn"` — with NO `is_nullifier_spent` check anywhere; the guarded appends
of the two output commitments; and, only when `last_root` is non-empty, the
root row and the on-chain root submission.  Failures keep the state mutated
so far. -/
def shielded_burn (env : BurnEnv) (st : HState) (req : BurnRequest) :
    HState × Except AspError BurnResponse :=
  match validate_burn_request req with
  | .error e => (st, .error e)
  | .ok _ =>
  match env.proof with
  | .error e => (st, .error e)
  | .ok _proof =>
  match env.output0 with
  | .error e => (st, .error e)
  | .ok output0 =>
  match env.output1 with
  | .error e => (st, .error e)
  | .ok output1 =>
  match env.position with
  | .error e => (st, .error e)
  | .ok position =>
  match env.proofResult with
  | .error e => (st, .error e)
  | .ok _proof_result =>
  match (if env.hasRelayer then env.burnTx else .error (.Internal "No relayer configured")) with
  | .error e => (st, .error e)
  | .ok tx_hash =>
  match st.db.insert_nullifier position.nullifier_hash "burn" (some tx_hash) with
  | .error e => (st, .error e)
  | .ok dbA =>
  match (if leaf_nonzero output0.commitment then
      insert_leaf_pair tx_hash output0.commitment dbA st.tree env.insertLeafResults ""
    else (dbA, st.tree, env.insertLeafResults, "", none)) with
  | (dbB, treeB, _, _, some e) => (⟨dbB, treeB⟩, .error e)
  | (dbB, treeB, oracleB, rootB, none) =>
  match (if leaf_nonzero output1.commitment then
      insert_leaf_pair tx_hash output1.commitment dbB treeB oracleB rootB
    else (dbB, treeB, oracleB, rootB, none)) with
  | (dbC, treeC, _, _, some e) => (⟨dbC, treeC⟩, .error e)
  | (dbC, treeC, _, rootC, none) =>
  if rootC.isEmpty then
    (⟨dbC, treeC⟩, .ok ⟨"confirmed", tx_hash, output0.commitment, output1.commitment⟩)
  else
    match dbC.insert_root rootC dbC.get_leaf_count (some tx_hash) with
    | .error e => (⟨dbC, treeC⟩, .error e)
    | .ok dbD =>
        match (if env.hasRelayer then env.rootTx else .ok "") with
        | .error e => (⟨dbD, treeC⟩, .error e)
        | .ok _root_tx =>
            (⟨dbD, treeC⟩, .ok ⟨"confirmed", tx_hash, output0.commitment, output1.commitment⟩)

/-- Whether an error is the `NullifierAlreadySpent` rejection (HTTP 409). -/
def isNullifierSpentRejection : AspError → Bool
  | .NullifierAlreadySpent _ => true
  | _ => false

theorem except_bind_error {α β : Type} (a : Except AspError α) (f : α → Except AspError β)
    (e : AspError) (h : (a >>= f) = .error e) :
    a = .error e ∨ ∃ u, a = .ok u ∧ f u = .error e := by
  cases a with
  | error e2 =>
      left
      have h2 : e2 = e := by simpa [Bind.bind, Except.bind] using h
      rw [h2]
  | ok u =>
      right
      exact ⟨u, rfl, by simpa [Bind.bind, Except.bind] using h⟩

theorem validate_secret_error_kind (v f : String) (e : AspError)
    (h : validate_secret v f = .error e) : isNullifierSpentRejection e = false := by
  unfold validate_secret at h
  split at h
  · injection h with h2; rw [← h2]; rfl
  · exact absurd h (by simp)

theorem validate_decimal_error_kind (v f : String) (e : AspError)
    (h : validate_decimal v f = .error e) : isNullifierSpentRejection e = false := by
  unfold validate_decimal at h
  repeat' split at h
  all_goals
    first
      | (injection h with h2; rw [← h2]; rfl)
      | exact absurd h (by simp)

theorem validate_address_error_kind (v f : String) (e : AspError)
    (h : validate_address v f = .error e) : isNullifierSpentRejection e = false := by
  unfold validate_address at h
  repeat' split at h
  all_goals
    first
      | (injection h with h2; rw [← h2]; rfl)
      | exact absurd h (by simp)

theorem validate_tick_error_kind (t : Int) (f : String) (e : AspError)
    (h : validate_tick t f = .error e) : isNullifierSpentRejection e = false := by
  unfold validate_tick at h
  split at h
  · injection h with h2; rw [← h2]; rfl
  · exact absurd h (by simp)

theorem validate_tick_range_error_kind (tl tu : Int) (e : AspError)
    (h : validate_tick_range tl tu = .error e) : isNullifierSpentRejection e = false := by
  unfold validate_tick_range at h
  rcases except_bind_error _ _ _ h with h | ⟨u, _, h⟩
  · exact validate_tick_error_kind _ _ _ h
  rcases except_bind_error _ _ _ h with h | ⟨u, _, h⟩
  · exact validate_tick_error_kind _ _ _ h
  split at h
  · injection h with h2; rw [← h2]; rfl
  · exact absurd h (by simp)

theorem validate_burn_output_error_kind (p : String) (note : OutputNoteInput) (e : AspError)
    (h : validate_burn_output p note = .error e) : isNullifierSpentRejection e = false := by
  unfold validate_burn_output at h
  rcases except_bind_error _ _ _ h with h | ⟨u, _, h⟩
  · exact validate_secret_error_kind _ _ _ h
  rcases except_bind_error _ _ _ h with h | ⟨u, _, h⟩
  · exact validate_secret_error_kind _ _ _ h
  rcases except_bind_error _ _ _ h with h | ⟨u, _, h⟩
  · exact validate_decimal_error_kind _ _ _ h
  rcases except_bind_error _ _ _ h with h | ⟨u, _, h⟩
  · exact validate_decimal_error_kind _ _ _ h
  exact validate_address_error_kind _ _ _ h

theorem validate_burn_request_error_kind (req : BurnRequest) (e : AspError)
    (h : validate_burn_request req = .error e) : isNullifierSpentRejection e = false := by
  unfold validate_burn_request at h
  rcases except_bind_error _ _ _ h with h | ⟨u, _, h⟩
  · exact validate_secret_error_kind _ _ _ h
  rcases except_bind_error _ _ _ h with h | ⟨u, _, h⟩
  · exact validate_secret_error_kind _ _ _ h
  rcases except_bind_error _ _ _ h with h | ⟨u, _, h⟩
  · exact validate_decimal_error_kind _ _ _ h
  rcases except_bind_error _ _ _ h with h | ⟨u, _, h⟩
  · exact validate_tick_range_error_kind _ _ _ h
  rcases except_bind_error _ _ _ h with h | ⟨u, _, h⟩
  · exact validate_burn_output_error_kind _ _ _ h
  rcases except_bind_error _ _ _ h with h | ⟨u, _, h⟩
  · exact validate_burn_output_error_kind _ _ _ h
  rcases except_bind_error _ _ _ h with h | ⟨u, _, h⟩
  · exact validate_address_error_kind _ _ _ h
  rcases except_bind_error _ _ _ h with h | ⟨u, _, h⟩
  · exact validate_address_error_kind _ _ _ h
  split at h
  · injection h with h2; rw [← h2]; rfl
  · exact absurd h (by simp)

theorem get_nullifier_congr (db db2 : Database) (x : String)
    (h : db2.nullifiers = db.nullifiers) :
    db2.get_nullifier x = db.get_nullifier x := by
  simp [Database.get_nullifier, h]

/-- Facts about one leaf-append block, whatever the store: the nullifier
table is untouched, the remaining oracle is drawn from the given one, and a
failure can only be an oracle (worker) failure. -/
theorem insert_leaf_pair_facts (tx c : String) (db : Database) (tree : List String)
    (oracle : List (Except AspError String)) (lastRoot : String)
    (db2 : Database) (tree2 : List String) (oracle2 : List (Except AspError String))
    (root2 : String) (err : Option AspError)
    (h : insert_leaf_pair tx c db tree oracle lastRoot = (db2, tree2, oracle2, root2, err)) :
    db2.nullifiers = db.nullifiers ∧
    (∀ y, y ∈ oracle2 → y ∈ oracle) ∧
    (∀ e, err = some e → Except.error e ∈ oracle) := by
  unfold insert_leaf_pair Database.insert_commitment at h
  dsimp only [] at h
  cases oracle with
  | nil =>
      simp only [Prod.mk.injEq] at h
      obtain ⟨h1, h2, h3, h4, h5⟩ := h
      refine ⟨?_, ?_, ?_⟩
      · rw [← h1]; split <;> rfl
      · rw [← h3]; intro y hy; exact hy
      · intro e he; rw [← h5] at he; cases he
  | cons o rest =>
      cases o with
      | error e0 =>
          simp only [Prod.mk.injEq] at h
          obtain ⟨h1, h2, h3, h4, h5⟩ := h
          refine ⟨?_, ?_, ?_⟩
          · rw [← h1]; split <;> rfl
          · rw [← h3]; intro y hy; exact List.mem_cons_of_mem _ hy
          · intro e he
            rw [← h5] at he
            injection he with he2
            rw [← he2]
            exact List.mem_cons_self _ _
      | ok root =>
          simp only [Prod.mk.injEq] at h
          obtain ⟨h1, h2, h3, h4, h5⟩ := h
          refine ⟨?_, ?_, ?_⟩
          · rw [← h1]; split <;> rfl
          · rw [← h3]; intro y hy; exact List.mem_cons_of_mem _ hy
          · intro e he; rw [← h5] at he; cases he

/-- C8: the burn pipeline performs no `is_nullifier_spent` check — whatever
the store holds, it never rejects with `NullifierAlreadySpent` (assuming, as
in the source, that the worker and relayer error kinds exclude that
rejection); its only nullifier-set effect is the single idempotent insert of
the position nullifier hash with kind `"burn"` after the on-chain submission
succeeds; and every already-present nullifier row is preserved unchanged
(first-write-wins), so the insert is a no-op when the hash is already
present. -/
theorem C8_burn_no_spent_check (env : BurnEnv) (st : HState) (req : BurnRequest)
    (hkinds : ∀ e,
      (env.proof = .error e ∨ env.output0 = .error e ∨ env.output1 = .error e ∨
        env.position = .error e ∨ env.proofResult = .error e ∨ env.burnTx = .error e ∨
        Except.error e ∈ env.insertLeafResults ∨ env.rootTx = .error e) →
      isNullifierSpentRejection e = false) :
    (∀ hsh, (shielded_burn env st req).2 ≠ .error (.NullifierAlreadySpent hsh)) ∧
    ((shielded_burn env st req).1.db.nullifiers = st.db.nullifiers ∨
      ∃ posr tx dbA, env.position = .ok posr ∧ env.hasRelayer = true ∧
        env.burnTx = .ok tx ∧
        st.db.insert_nullifier posr.nullifier_hash "burn" (some tx) = .ok dbA ∧
        (shielded_burn env st req).1.db.nullifiers = dbA.nullifiers) ∧
    (∀ x row, st.db.get_nullifier x = some row →
      (shielded_burn env st req).1.db.get_nullifier x = some row) := by
  have hnas : ∀ (e : AspError), isNullifierSpentRejection e = false →
      ∀ hsh, (Except.error e : Except AspError BurnResponse)
        ≠ .error (.NullifierAlreadySpent hsh) := by
    intro e hk hsh hc
    injection hc with h2
    rw [h2] at hk
    simp [isNullifierSpentRejection] at hk
  unfold shielded_burn
  cases hval : validate_burn_request req with
  | error e =>
      exact ⟨fun hsh => hnas e (validate_burn_request_error_kind req e hval) hsh,
        Or.inl rfl, fun x row h => h⟩
  | ok u =>
  cases u
  cases hpf : env.proof with
  | error e =>
      exact ⟨fun hsh => hnas e (hkinds e (Or.inl hpf)) hsh, Or.inl rfl, fun x row h => h⟩
  | ok prf =>
  cases ho0 : env.output0 with
  | error e =>
      exact ⟨fun hsh => hnas e (hkinds e (Or.inr (Or.inl ho0))) hsh, Or.inl rfl,
        fun x row h => h⟩
  | ok output0 =>
  cases ho1 : env.output1 with
  | error e =>
      exact ⟨fun hsh => hnas e (hkinds e (Or.inr (Or.inr (Or.inl ho1)))) hsh, Or.inl rfl,
        fun x row h => h⟩
  | ok output1 =>
  cases hps : env.position with
  | error e =>
      exact ⟨fun hsh => hnas e (hkinds e (Or.inr (Or.inr (Or.inr (Or.inl hps))))) hsh,
        Or.inl rfl, fun x row h => h⟩
  | ok posr =>
  cases hpr : env.proofResult with
  | error e =>
      exact ⟨fun hsh => hnas e
          (hkinds e (Or.inr (Or.inr (Or.inr (Or.inr (Or.inl hpr)))))) hsh,
        Or.inl rfl, fun x row h => h⟩
  | ok prres =>
  cases hrel : env.hasRelayer with
  | false =>
      rw [if_neg (by decide)]
      exact ⟨fun hsh hc => by simp at hc, Or.inl rfl, fun x row h => h⟩
  | true =>
  rw [if_pos rfl]
  cases htx2 : env.burnTx with
  | error e =>
      exact ⟨fun hsh => hnas e
          (hkinds e (Or.inr (Or.inr (Or.inr (Or.inr (Or.inr (Or.inl htx2))))))) hsh,
        Or.inl rfl, fun x row h => h⟩
  | ok tx =>
  dsimp only []
  obtain ⟨dbA, hA⟩ : ∃ d, st.db.insert_nullifier posr.nullifier_hash "burn" (some tx)
      = .ok d := ⟨_, rfl⟩
  rw [hA]
  dsimp only []
  have hAget : ∀ x row, st.db.get_nullifier x = some row →
      dbA.get_nullifier x = some row :=
    fun x row h => insert_nullifier_get_preserved st.db posr.nullifier_hash "burn"
      (some tx) dbA hA x row h
  rcases hb1 : (if leaf_nonzero output0.commitment = true then
      insert_leaf_pair tx output0.commitment dbA st.tree env.insertLeafResults ""
    else (dbA, st.tree, env.insertLeafResults, "", none)) with ⟨dbB, treeB, oracleB, rootB, err1⟩
  have hfacts1 : dbB.nullifiers = dbA.nullifiers ∧
      (∀ y, y ∈ oracleB → y ∈ env.insertLeafResults) ∧
      (∀ e, err1 = some e → Except.error e ∈ env.insertLeafResults) := by
    by_cases g0 : leaf_nonzero output0.commitment = true
    · rw [if_pos g0] at hb1
      exact insert_leaf_pair_facts _ _ _ _ _ _ _ _ _ _ _ hb1
    · rw [if_neg g0] at hb1
      simp only [Prod.mk.injEq] at hb1
      obtain ⟨e1, e2, e3, e4, e5⟩ := hb1
      refine ⟨by rw [← e1], fun y hy => by rw [← e3] at hy; exact hy, ?_⟩
      intro e he
      rw [← e5] at he
      cases he
  obtain ⟨hB_null, hB_oracle, hB_err⟩ := hfacts1
  cases err1 with
  | some e =>
      refine ⟨fun hsh => hnas e
          (hkinds e (Or.inr (Or.inr (Or.inr (Or.inr (Or.inr (Or.inr
            (Or.inl (hB_err e rfl))))))))) hsh,
        Or.inr ⟨posr, tx, dbA, rfl, rfl, rfl, hA, hB_null⟩, ?_⟩
      intro x row h
      rw [get_nullifier_congr dbA dbB x hB_null]
      exact hAget x row h
  | none =>
  dsimp only []
  rcases hb2 : (if leaf_nonzero output1.commitment = true then
      insert_leaf_pair tx output1.commitment dbB treeB oracleB rootB
    else (dbB, treeB, oracleB, rootB, none)) with ⟨dbC, treeC, oracleC, rootC, err2⟩
  have hfacts2 : dbC.nullifiers = dbB.nullifiers ∧
      (∀ e, err2 = some e → Except.error e ∈ oracleB) := by
    by_cases g1 : leaf_nonzero output1.commitment = true
    · rw [if_pos g1] at hb2
      obtain ⟨a, b, c⟩ := insert_leaf_pair_facts _ _ _ _ _ _ _ _ _ _ _ hb2
      exact ⟨a, c⟩
    · rw [if_neg g1] at hb2
      simp only [Prod.mk.injEq] at hb2
      obtain ⟨e1, e2, e3, e4, e5⟩ := hb2
      refine ⟨by rw [← e1], ?_⟩
      intro e he
      rw [← e5] at he
      cases he
  obtain ⟨hC_null, hC_err⟩ := hfacts2
  have hC_nullA : dbC.nullifiers = dbA.nullifiers := hC_null.trans hB_null
  have hCget : ∀ x row, st.db.get_nullifier x = some row →
      dbC.get_nullifier x = some row := by
    intro x row h
    rw [get_nullifier_congr dbA dbC x hC_nullA]
    exact hAget x row h
  cases err2 with
  | some e =>
      exact ⟨fun hsh => hnas e
          (hkinds e (Or.inr (Or.inr (Or.inr (Or.inr (Or.inr (Or.inr
            (Or.inl (hB_oracle _ (hC_err e rfl)))))))))) hsh,
        Or.inr ⟨posr, tx, dbA, rfl, rfl, rfl, hA, hC_nullA⟩, hCget⟩
  | none =>
  dsimp only []
  by_cases hre : rootC.isEmpty = true
  · rw [if_pos hre]
    exact ⟨fun hsh hc => by simp at hc,
      Or.inr ⟨posr, tx, dbA, rfl, rfl, rfl, hA, hC_nullA⟩, hCget⟩
  · rw [if_neg hre]
    obtain ⟨dbD, hD⟩ : ∃ d, dbC.insert_root rootC dbC.get_leaf_count (some tx)
        = .ok d := ⟨_, rfl⟩
    rw [hD]
    have hD_null : dbD.nullifiers = dbA.nullifiers :=
      (insert_root_nullifiers dbC rootC dbC.get_leaf_count (some tx) dbD hD).trans hC_nullA
    have hDget : ∀ x row, st.db.get_nullifier x = some row →
        dbD.get_nullifier x = some row := by
      intro x row h
      rw [get_nullifier_congr dbA dbD x hD_null]
      exact hAget x row h
    cases hrt : env.rootTx with
    | error e =>
        rw [if_pos rfl]
        exact ⟨fun hsh => hnas e
            (hkinds e (Or.inr (Or.inr (Or.inr (Or.inr (Or.inr (Or.inr
              (Or.inr hrt)))))))) hsh,
          Or.inr ⟨posr, tx, dbA, rfl, rfl, rfl, hA, hD_null⟩, hDget⟩
    | ok rtx =>
        rw [if_pos rfl]
        exact ⟨fun hsh hc => by simp at hc,
          Or.inr ⟨posr, tx, dbA, rfl, rfl, rfl, hA, hD_null⟩, hDget⟩

/-- Oracle where every external call of the burn succeeds. -/
def c8env : BurnEnv where
  proof := .ok ⟨[], [], "rt"⟩
  output0 := .ok ⟨"11", "oh0"⟩
  output1 := .ok ⟨"12", "oh1"⟩
  position := .ok ⟨"pc", "ph"⟩
  proofResult := .ok ⟨[], []⟩
  hasRelayer := true
  burnTx := .ok "0xburn"
  insertLeafResults := [.ok "r1", .ok "r2"]
  rootTx := .ok "0xroot"

/-- A concrete burn request that passes validation, aimed at a store where
the position nullifier hash `"ph"` is ALREADY present. -/
def c8req : BurnRequest where
  pool_key := ⟨"0x1", "0x2", 3000, 60⟩
  position_note := ⟨"ps", "pn", "5", -60, 60, 0⟩
  output_note_0 := ⟨"os0", "on0", "1", "0", "0x1"⟩
  output_note_1 := ⟨"os1", "on1", "2", "0", "0x2"⟩
  liquidity := 5

/-- A store whose nullifier table already holds the position hash. -/
def c8st : HState :=
  ⟨⟨[⟨0, "pc", none⟩], [], [⟨"ph", "membership", some "0xold"⟩], []⟩, ["pc"]⟩

/-- C8 witness: the theorem applied at the concrete burn instance — the
pre-existing row for the position hash survives unchanged. -/
theorem C8_burn_no_spent_check_witness :
    (shielded_burn c8env c8st c8req).1.db.get_nullifier "ph"
      = some ⟨"ph", "membership", some "0xold"⟩ :=
  (C8_burn_no_spent_check c8env c8st c8req (by
    intro e h
    rcases h with h | h | h | h | h | h | h | h <;> simp [c8env] at h)).2.2 "ph"
    ⟨"ph", "membership", some "0xold"⟩ (by decide)

/-! Nullifier monotonicity: every mutation of the store only ever APPENDS
nullifier rows, so a spent hash stays spent and its row is never rewritten. -/

/-- The nullifier table of `db2` extends that of `db`. -/
def NullExtends (db db2 : Database) : Prop :=
  ∃ s, db2.nullifiers = db.nullifiers ++ s

theorem null_extends_refl (db : Database) : NullExtends db db :=
  ⟨[], by simp⟩

theorem null_extends_trans (db db2 db3 : Database) (h1 : NullExtends db db2)
    (h2 : NullExtends db2 db3) : NullExtends db db3 := by
  obtain ⟨s1, hs1⟩ := h1
  obtain ⟨s2, hs2⟩ := h2
  exact ⟨s1 ++ s2, by rw [hs2, hs1, List.append_assoc]⟩

theorem null_extends_of_eq (db db2 : Database) (h : db2.nullifiers = db.nullifiers) :
    NullExtends db db2 :=
  ⟨[], by simp [h]⟩

theorem null_extends_get (db db2 : Database) (h : NullExtends db db2) (x : String)
    (row : NullifierRow) (hrow : db.get_nullifier x = some row) :
    db2.get_nullifier x = some row := by
  obtain ⟨s, hs⟩ := h
  simp only [Database.get_nullifier] at hrow ⊢
  rw [hs, List.find?_append, hrow]
  rfl

theorem insert_nullifier_extends (db : Database) (h c : String) (tx : Option String)
    (db2 : Database) (hok : db.insert_nullifier h c tx = .ok db2) :
    NullExtends db db2 := by
  simp only [Database.insert_nullifier, Except.ok.injEq] at hok
  split at hok
  · exact null_extends_of_eq db db2 (by rw [← hok])
  · exact ⟨[⟨h, c, tx⟩], by rw [← hok]⟩

theorem insert_leaf_pair_extends (tx c : String) (db : Database) (tree : List String)
    (oracle : List (Except AspError String)) (lastRoot : String) :
    NullExtends db (insert_leaf_pair tx c db tree oracle lastRoot).1 := by
  rcases h : insert_leaf_pair tx c db tree oracle lastRoot with ⟨db2, tree2, o2, r2, err⟩
  exact null_extends_of_eq db db2
    (insert_leaf_pair_facts tx c db tree oracle lastRoot db2 tree2 o2 r2 err h).1

theorem apply_new_leaves_null_eq (leaves : List (Nat × String)) :
    ∀ leafResults db tree,
      (apply_new_leaves leafResults db tree leaves).1.nullifiers = db.nullifiers := by
  induction leaves with
  | nil => intro leafResults db tree; rfl
  | cons leaf rest ih =>
      intro leafResults db tree
      obtain ⟨i, c⟩ := leaf
      simp only [apply_new_leaves]
      cases hins : db.insert_commitment i c none with
      | error e => simp
      | ok db2 =>
          have hs := insert_commitment_nullifiers db i c none db2 hins
          cases leafResults with
          | nil => simpa [ih] using hs
          | cons r restResults =>
              cases r with
              | error e => simpa using hs
              | ok root => simpa [ih] using hs

theorem apply_new_nullifiers_extends (nulls : List String) :
    ∀ db, NullExtends db (apply_new_nullifiers db nulls).1 := by
  induction nulls with
  | nil => intro db; exact null_extends_refl db
  | cons n rest ih =>
      intro db
      simp only [apply_new_nullifiers]
      cases hins : db.insert_nullifier n "synced" none with
      | error e => exact null_extends_refl db
      | ok db2 =>
          exact null_extends_trans db db2 _ (insert_nullifier_extends db n "synced" none db2 hins)
            (ih db2)

theorem poll_events_extends (pages : List (Except AspError EventsPage))
    (leafResults : List (Except AspError String)) (db : Database) (tree : List String) :
    NullExtends db (poll_events pages leafResults db tree).1 := by
  unfold poll_events
  cases hc : collect_events db pages ([], []) with
  | error e => exact null_extends_refl db
  | ok acc =>
      obtain ⟨newLeaves, newNullifiers⟩ := acc
      dsimp only []
      have h2 := apply_new_leaves_null_eq newLeaves leafResults db tree
      rcases hl : apply_new_leaves leafResults db tree newLeaves with ⟨db2, tree2, err2⟩
      rw [hl] at h2
      cases err2 with
      | some e => exact null_extends_of_eq db db2 h2
      | none =>
          dsimp only []
          have h3 := apply_new_nullifiers_extends newNullifiers db2
          rcases hn : apply_new_nullifiers db2 newNullifiers with ⟨db3, err3⟩
          rw [hn] at h3
          have hext : NullExtends db db3 :=
            null_extends_trans db db2 db3 (null_extends_of_eq db db2 h2) h3
          cases err3 with
          | some e => exact hext
          | none => exact hext

theorem submit_root_if_changed_extends (workerRoot submitTx : Except AspError String)
    (db : Database) : NullExtends db (submit_root_if_changed workerRoot submitTx db).1 := by
  unfold submit_root_if_changed Database.insert_root
  split
  · exact null_extends_refl db
  · cases workerRoot with
    | error e => exact null_extends_refl db
    | ok current_root =>
        dsimp only []
        split
        · exact null_extends_refl db
        · cases submitTx with
          | error e => exact null_extends_refl db
          | ok tx => exact null_extends_of_eq db _ rfl

theorem sync_once_extends (io : SyncIO) (db : Database) (tree : List String) :
    NullExtends db (sync_once io db tree).1 := by
  unfold sync_once
  cases hb : io.blockNumber with
  | error e => exact null_extends_refl db
  | ok latest =>
      dsimp only []
      split
      · exact null_extends_refl db
      · have hpe := poll_events_extends io.pages io.leafResults db tree
        rcases hp : poll_events io.pages io.leafResults db tree with ⟨db2, tree2, res2⟩
        rw [hp] at hpe
        cases res2 with
        | error e => exact hpe
        | ok counts =>
            dsimp only []
            set db3 := if 0 < counts.1
              then (submit_root_if_changed io.workerRoot io.submitTx db2).1 else db2 with hdb3
            have hext3 : NullExtends db db3 := by
              rw [hdb3]
              split
              · exact null_extends_trans db db2 _ hpe
                  (submit_root_if_changed_extends io.workerRoot io.submitTx db2)
              · exact hpe
            cases hset : db3.set_sync_state "last_block" (toString latest) with
            | error e => exact hext3
            | ok db4 =>
                dsimp only []
                exact null_extends_trans db db3 db4 hext3
                  (null_extends_of_eq db3 db4
                    (set_sync_state_nullifiers db3 _ _ db4 hset))

theorem deposit_extends (env : DepositEnv) (st : HState) (req : DepositRequest) :
    NullExtends st.db (deposit env st req).1.db := by
  unfold deposit
  split
  · exact null_extends_refl st.db
  · cases hd : env.depositTx with
    | error e => exact null_extends_refl st.db
    | ok dtx =>
        dsimp only []
        cases hc : commitment_to_decimal req.commitment with
        | error e => exact null_extends_refl st.db
        | ok dec =>
            dsimp only []
            cases hil : env.insertLeaf with
            | error e => exact null_extends_refl st.db
            | ok root =>
                dsimp only []
                obtain ⟨db1, h1⟩ : ∃ d, st.db.insert_commitment
                    (if st.db.get_leaf_count > 0 then st.db.get_leaf_count - 1 else 0) dec
                    (some dtx) = .ok d := ⟨_, rfl⟩
                rw [h1]
                dsimp only []
                have he1 : NullExtends st.db db1 :=
                  null_extends_of_eq st.db db1 (insert_commitment_nullifiers st.db _ dec
                    (some dtx) db1 h1)
                cases hrt : env.rootTx with
                | error e => exact he1
                | ok rtx =>
                    dsimp only []
                    obtain ⟨db2, h2⟩ : ∃ d, db1.insert_root root st.db.get_leaf_count
                        (some rtx) = .ok d := ⟨_, rfl⟩
                    rw [h2]
                    exact null_extends_trans st.db db1 db2 he1
                      (null_extends_of_eq db1 db2 (insert_root_nullifiers db1 root _
                        (some rtx) db2 h2))

theorem shielded_mint_extends (env : MintEnv) (st : HState) (req : MintRequest) :
    NullExtends st.db (shielded_mint env st req).1.db := by
  unfold shielded_mint
  cases hval : validate_mint_request req with
  | error e => exact null_extends_refl st.db
  | ok u =>
  cases u
  cases h0 : env.input0 with
  | error e => exact null_extends_refl st.db
  | ok input0 =>
  cases h1 : env.input1 with
  | error e => exact null_extends_refl st.db
  | ok input1 =>
  dsimp only []
  cases hv0 : verify_input_note st.db req.input_note_0 input0 with
  | error e => exact null_extends_refl st.db
  | ok u0 =>
  cases u0
  cases hv1 : verify_input_note st.db req.input_note_1 input1 with
  | error e => exact null_extends_refl st.db
  | ok u1 =>
  cases u1
  cases hp0 : env.proof0 with
  | error e => exact null_extends_refl st.db
  | ok mp0 =>
  cases hp1 : env.proof1 with
  | error e => exact null_extends_refl st.db
  | ok mp1 =>
  cases hpos : env.position with
  | error e => exact null_extends_refl st.db
  | ok posr =>
  cases hpr : env.proofResult with
  | error e => exact null_extends_refl st.db
  | ok pr =>
  cases hrel : env.hasRelayer with
  | false =>
      rw [if_neg (by decide)]
      exact null_extends_refl st.db
  | true =>
  rw [if_pos rfl]
  cases htx : env.mintTx with
  | error e => exact null_extends_refl st.db
  | ok tx =>
  dsimp only []
  obtain ⟨dbA, hA⟩ : ∃ d, st.db.insert_nullifier input0.nullifier_hash "mint" (some tx)
      = .ok d := ⟨_, rfl⟩
  rw [hA]
  dsimp only []
  have heA : NullExtends st.db dbA :=
    insert_nullifier_extends st.db _ "mint" (some tx) dbA hA
  obtain ⟨dbB, hB⟩ : ∃ d, dbA.insert_nullifier input1.nullifier_hash "mint" (some tx)
      = .ok d := ⟨_, rfl⟩
  rw [hB]
  dsimp only []
  have heB : NullExtends st.db dbB :=
    null_extends_trans _ _ _ heA (insert_nullifier_extends dbA _ "mint" (some tx) dbB hB)
  rcases hb1 : (if leaf_nonzero ((pr.public_signals.get? 0).getD "") = true then
      insert_leaf_pair tx ((pr.public_signals.get? 0).getD "") dbB st.tree
        env.insertLeafResults ""
    else (dbB, st.tree, env.insertLeafResults, "", none)) with ⟨dbC, treeC, oC, rC, err1⟩
  have heC : NullExtends st.db dbC := by
    refine null_extends_trans _ _ _ heB ?_
    by_cases g0 : leaf_nonzero ((pr.public_signals.get? 0).getD "") = true
    · rw [if_pos g0] at hb1
      exact null_extends_of_eq _ _
        (insert_leaf_pair_facts _ _ _ _ _ _ _ _ _ _ _ hb1).1
    · rw [if_neg g0] at hb1
      simp only [Prod.mk.injEq] at hb1
      exact null_extends_of_eq _ _ (by rw [← hb1.1])
  cases err1 with
  | some e => exact heC
  | none =>
  dsimp only []
  rcases hb2 : (if leaf_nonzero ((pr.public_signals.get? 1).getD "") = true then
      insert_leaf_pair tx ((pr.public_signals.get? 1).getD "") dbC treeC oC rC
    else (dbC, treeC, oC, rC, none)) with ⟨dbD, treeD, oD, rD, err2⟩
  have heD : NullExtends st.db dbD := by
    refine null_extends_trans _ _ _ heC ?_
    by_cases g1 : leaf_nonzero ((pr.public_signals.get? 1).getD "") = true
    · rw [if_pos g1] at hb2
      exact null_extends_of_eq _ _
        (insert_leaf_pair_facts _ _ _ _ _ _ _ _ _ _ _ hb2).1
    · rw [if_neg g1] at hb2
      simp only [Prod.mk.injEq] at hb2
      exact null_extends_of_eq _ _ (by rw [← hb2.1])
  cases err2 with
  | some e => exact heD
  | none =>
  dsimp only []
  rcases hb3 : insert_leaf_pair tx posr.commitment dbD treeD oD rD
    with ⟨dbE, treeE, oE, rE, err3⟩
  have heE : NullExtends st.db dbE :=
    null_extends_trans _ _ _ heD (null_extends_of_eq _ _
      (insert_leaf_pair_facts _ _ _ _ _ _ _ _ _ _ _ hb3).1)
  cases err3 with
  | some e => exact heE
  | none =>
  dsimp only []
  obtain ⟨dbF, hF⟩ : ∃ d, dbE.insert_root rE dbE.get_leaf_count (some tx) = .ok d := ⟨_, rfl⟩
  rw [hF]
  dsimp only []
  have heF : NullExtends st.db dbF :=
    null_extends_trans _ _ _ heE
      (null_extends_of_eq _ _ (insert_root_nullifiers dbE rE _ (some tx) dbF hF))
  cases hrt : env.rootTx with
  | error e => rw [if_pos rfl]; exact heF
  | ok rtx => rw [if_pos rfl]; exact heF

theorem shielded_burn_extends (env : BurnEnv) (st : HState) (req : BurnRequest) :
    NullExtends st.db (shielded_burn env st req).1.db := by
  unfold shielded_burn
  cases hval : validate_burn_request req with
  | error e => exact null_extends_refl st.db
  | ok u =>
  cases u
  cases hpf : env.proof with
  | error e => exact null_extends_refl st.db
  | ok prf =>
  cases ho0 : env.output0 with
  | error e => exact null_extends_refl st.db
  | ok output0 =>
  cases ho1 : env.output1 with
  | error e => exact null_extends_refl st.db
  | ok output1 =>
  cases hps : env.position with
  | error e => exact null_extends_refl st.db
  | ok posr =>
  cases hpr : env.proofResult with
  | error e => exact null_extends_refl st.db
  | ok prres =>
  cases hrel : env.hasRelayer with
  | false =>
      rw [if_neg (by decide)]
      exact null_extends_refl st.db
  | true =>
  rw [if_pos rfl]
  cases htx : env.burnTx with
  | error e => exact null_extends_refl st.db
  | ok tx =>
  dsimp only []
  obtain ⟨dbA, hA⟩ : ∃ d, st.db.insert_nullifier posr.nullifier_hash "burn" (some tx)
      = .ok d := ⟨_, rfl⟩
  rw [hA]
  dsimp only []
  have heA : NullExtends st.db dbA :=
    insert_nullifier_extends st.db _ "burn" (some tx) dbA hA
  rcases hb1 : (if leaf_nonzero output0.commitment = true then
      insert_leaf_pair tx output0.commitment dbA st.tree env.insertLeafResults ""
    else (dbA, st.tree, env.insertLeafResults, "", none)) with ⟨dbB, treeB, oB, rB, err1⟩
  have heB : NullExtends st.db dbB := by
    refine null_extends_trans _ _ _ heA ?_
    by_cases g0 : leaf_nonzero output0.commitment = true
    · rw [if_pos g0] at hb1
      exact null_extends_of_eq _ _
        (insert_leaf_pair_facts _ _ _ _ _ _ _ _ _ _ _ hb1).1
    · rw [if_neg g0] at hb1
      simp only [Prod.mk.injEq] at hb1
      exact null_extends_of_eq _ _ (by rw [← hb1.1])
  cases err1 with
  | some e => exact heB
  | none =>
  dsimp only []
  rcases hb2 : (if leaf_nonzero output1.commitment = true then
      insert_leaf_pair tx output1.commitment dbB treeB oB rB
    else (dbB, treeB, oB, rB, none)) with ⟨dbC, treeC, oC, rC, err2⟩
  have heC : NullExtends st.db dbC := by
    refine null_extends_trans _ _ _ heB ?_
    by_cases g1 : leaf_nonzero output1.commitment = true
    · rw [if_pos g1] at hb2
      exact null_extends_of_eq _ _
        (insert_leaf_pair_facts _ _ _ _ _ _ _ _ _ _ _ hb2).1
    · rw [if_neg g1] at hb2
      simp only [Prod.mk.injEq] at hb2
      exact null_extends_of_eq _ _ (by rw [← hb2.1])
  cases err2 with
  | some e => exact heC
  | none =>
  dsimp only []
  split
  · exact heC
  · obtain ⟨dbD, hD⟩ : ∃ d, dbC.insert_root rC dbC.get_leaf_count (some tx) = .ok d :=
      ⟨_, rfl⟩
    rw [hD]
    have heD : NullExtends st.db dbD :=
      null_extends_trans _ _ _ heC
        (null_extends_of_eq _ _ (insert_root_nullifiers dbC rC _ (some tx) dbD hD))
    cases hrt : env.rootTx with
    | error e => rw [if_pos rfl]; exact heD
    | ok rtx => rw [if_pos rfl]; exact heD

/-- C5: nullifier monotonicity.  Once `is_nullifier_spent(h)` is true it
stays true, and the stored row keeps its original `circuit_type` and
`tx_hash`, across every sequence of store operations (the four mutators of
queries.rs are the only store writes in the source) and across every modelled
pipeline run (deposit, mint, burn, and a sync cycle); `insert_nullifier` on
an already-present hash is a first-write-wins no-op that leaves the whole
store unchanged. -/
theorem C5_nullifier_monotonicity :
    (∀ (db : Database) (ops : List StoreOp) (x : String),
      db.is_nullifier_spent x = true →
      (ops.foldl Database.applyOp db).is_nullifier_spent x = true) ∧
    (∀ (db : Database) (ops : List StoreOp) (x : String) (row : NullifierRow),
      db.get_nullifier x = some row →
      (ops.foldl Database.applyOp db).get_nullifier x = some row) ∧
    (∀ (db : Database) (h c : String) (tx : Option String) (db2 : Database),
      db.insert_nullifier h c tx = .ok db2 →
      db.is_nullifier_spent h = true → db2 = db) ∧
    (∀ (env : DepositEnv) (st : HState) (req : DepositRequest) (x : String)
        (row : NullifierRow), st.db.get_nullifier x = some row →
      (deposit env st req).1.db.get_nullifier x = some row) ∧
    (∀ (env : MintEnv) (st : HState) (req : MintRequest) (x : String)
        (row : NullifierRow), st.db.get_nullifier x = some row →
      (shielded_mint env st req).1.db.get_nullifier x = some row) ∧
    (∀ (env : BurnEnv) (st : HState) (req : BurnRequest) (x : String)
        (row : NullifierRow), st.db.get_nullifier x = some row →
      (shielded_burn env st req).1.db.get_nullifier x = some row) ∧
    (∀ (io : SyncIO) (db : Database) (tree : List String) (x : String)
        (row : NullifierRow), db.get_nullifier x = some row →
      (sync_once io db tree).1.get_nullifier x = some row) := by
  refine ⟨?_, ?_, ?_, ?_, ?_, ?_, ?_⟩
  · intro db ops x hs
    obtain ⟨row, hrow⟩ := get_nullifier_of_spent db x hs
    exact spent_of_get_nullifier _ x row (foldl_applyOp_get_nullifier_preserved ops db x row hrow)
  · intro db ops x row hrow
    exact foldl_applyOp_get_nullifier_preserved ops db x row hrow
  · intro db h c tx db2 hok hs
    exact insert_nullifier_present_noop db h c tx db2 hok hs
  · intro env st req x row h
    exact null_extends_get _ _ (deposit_extends env st req) x row h
  · intro env st req x row h
    exact null_extends_get _ _ (shielded_mint_extends env st req) x row h
  · intro env st req x row h
    exact null_extends_get _ _ (shielded_burn_extends env st req) x row h
  · intro io db tree x row h
    exact null_extends_get _ _ (sync_once_extends io db tree) x row h

/-- C5 witness: the monotonicity theorem applied to a concrete store holding
one nullifier row and a concrete operation sequence that re-inserts the same
hash with a different circuit and also writes the other tables — the
original row survives unchanged. -/
theorem C5_nullifier_monotonicity_witness :
    (([StoreOp.insertNullifier "n1" "swap" none, StoreOp.insertCommitment 0 "c" none,
        StoreOp.setSyncState "last_block" "9", StoreOp.insertRoot "r" 1 none].foldl
      Database.applyOp
      ⟨[], [], [⟨"n1", "membership", some "0x1"⟩], []⟩).get_nullifier "n1")
      = some ⟨"n1", "membership", some "0x1"⟩ :=
  C5_nullifier_monotonicity.2.1 ⟨[], [], [⟨"n1", "membership", some "0x1"⟩], []⟩
    [StoreOp.insertNullifier "n1" "swap" none, StoreOp.insertCommitment 0 "c" none,
      StoreOp.setSyncState "last_block" "9", StoreOp.insertRoot "r" 1 none]
    "n1" ⟨"n1", "membership", some "0x1"⟩ (by decide)

end Zylith
